import Mathlib

/-!
# ecschedule: the `dump` command (`cmd_dump.go`)

A shallow embedding of `cmdDump.run`: the resolution of region, cluster and
role from flags and configuration, the loop that turns the remote rule listing
and the targets attached to each rule into the local `Rule` / `Target` /
`ContainerOverride` entities, and the marshalling of the resulting `Config`.

Conventions of the embedding.

* Go `string` is `String`; `strings.HasPrefix` and `strings.TrimPrefix` are
  defined on the underlying character lists.
* A Go pointer field (`*string`, `*int64`, `*EcsParameters`) is an `Option`;
  dereferencing `none` is the nil-pointer panic, kept as an explicit outcome.
* `int64` is `Int`: the code does no arithmetic on task counts.
* The collaborators that are not in `cmd_dump.go` (`os.Open`, `LoadConfig`,
  `cloudwatchevents.New` with its two listers, `json.Unmarshal` into
  `ecs.TaskOverride`, `yaml.Marshal`, the constant `defaultRole`) are
  parameters of the embedding.
-/

namespace Ecsched

/-! ## Strings -/

/-- Go `strings.HasPrefix(s, prefix)`:
`len(s) >= len(prefix) && s[0:len(prefix)] == prefix`. -/
def hasPrefix (s pre : String) : Bool :=
  pre.data.isPrefixOf s.data

/-- Go `strings.TrimPrefix(s, prefix)`:
`if HasPrefix(s, prefix) { return s[len(prefix):] }; return s`. -/
def trimPrefix (s pre : String) : String :=
  if hasPrefix s pre then ⟨s.data.drop pre.data.length⟩ else s

/-! ## Remote data (AWS SDK structs, as read by `run`) -/

namespace cloudwatchevents

/-- The SDK struct `cloudwatchevents.EcsParameters`: the two fields `run` dereferences. -/
structure EcsParameters where
  TaskCount : Option Int
  TaskDefinitionArn : Option String
  deriving DecidableEq, Repr

/-- The SDK struct `cloudwatchevents.Target`: an element of `ta.Targets`. -/
structure Target where
  Arn : Option String
  Id : Option String
  RoleArn : Option String
  EcsParameters : Option EcsParameters
  Input : Option String
  deriving DecidableEq, Repr

/-- The SDK struct `cloudwatchevents.Rule`: an element of `ruleList.Rules`. -/
structure Rule where
  Arn : Option String
  Name : Option String
  Description : Option String
  ScheduleExpression : Option String
  State : Option String
  deriving DecidableEq, Repr

end cloudwatchevents

namespace ecs

/-- The SDK struct `ecs.KeyValuePair`. -/
structure KeyValuePair where
  Name : Option String
  Value : Option String
  deriving DecidableEq, Repr

/-- The SDK struct `ecs.ContainerOverride`: `Command` is `[]*string`, `Environment` is
`[]*KeyValuePair`; `Name` is the payload's own container name. -/
structure ContainerOverride where
  Name : Option String
  Command : List (Option String)
  Environment : List (Option KeyValuePair)
  deriving DecidableEq, Repr

/-- The SDK struct `ecs.TaskOverride`: `ContainerOverrides` is `[]*ContainerOverride`. -/
structure TaskOverride where
  ContainerOverrides : List (Option ContainerOverride)
  deriving DecidableEq, Repr

end ecs

/-! ## Local entities -/

/-- Modelled from the spec: the `ContainerOverride` struct declaration is not in
`cmd_dump.go`; the fields are those the composite literal at lines 143-147
assigns (`Name`, `Command`, `Environment`). `Environment` is a Go
`map[string]string`: `none` is the nil map, `some m` an allocated map whose
entries are the association list `m` (distinct keys). -/
structure ContainerOverride where
  Name : String
  Command : List String
  Environment : Option (List (String × String))
  deriving DecidableEq, Repr

/-- Modelled from the spec: the `Target` struct declaration is not in
`cmd_dump.go`; the fields are those `run` assigns. `TaskCount` receives an
`int64` by plain assignment (line 125), so it is an integer whose zero value
is the unset one. -/
structure Target where
  TargetID : String
  Role : String
  TaskCount : Int
  TaskDefinition : String
  ContainerOverrides : List ContainerOverride
  deriving DecidableEq, Repr

/-- Modelled from the spec: the `Rule` struct declaration is not in
`cmd_dump.go`; the fields are those of the composite literal at lines 152-157
plus `Target`, a pointer that is nil until line 162 sets it. -/
structure Rule where
  Name : String
  Description : String
  ScheduleExpression : String
  Disabled : Bool
  Target : Option Target
  deriving DecidableEq, Repr

/-! ## Control flow -/

/-- How a piece of a loop body ends: it falls through with a value, it leaves
the rule (`continue RuleList`), it returns an error (`return err`), or it
dereferences a nil pointer. -/
inductive Flow (α : Type) where
  | next (a : α)
  | skipRule
  | fail (err : String)
  | panic
  deriving DecidableEq, Repr

/-- Sequencing of loop-body pieces: only `next` runs what follows. -/
def Flow.bind {α β : Type} (x : Flow α) (f : α → Flow β) : Flow β :=
  match x with
  | .next a => f a
  | .skipRule => .skipRule
  | .fail e => .fail e
  | .panic => .panic

instance : Monad Flow where
  pure := Flow.next
  bind := Flow.bind

/-- Go `*p`: the pointee, or a nil-pointer panic. -/
def deref {α : Type} (p : Option α) : Flow α :=
  match p with
  | some a => .next a
  | none => .panic

/-- Go `if err != nil { return err }` after a fallible call. -/
def orReturn {α : Type} (x : Except String α) : Flow α :=
  match x with
  | .ok a => .next a
  | .error e => .fail e

/-- Go `if cond { continue RuleList }`. -/
def continueRuleListIf (cond : Bool) : Flow Unit :=
  if cond then .skipRule else .next ()

/-- What lines 84-171 of `run` end with: the `rules` slice, a returned error,
or a nil-pointer panic. -/
inductive Outcome where
  | ok (rules : List Rule)
  | error (err : String)
  | panic
  deriving DecidableEq, Repr

/-! ## Identifier templates (lines 86-90) -/

/-- The values of `*region`, `accountID`, `*cluster` and `*role` at line 84. -/
structure Context where
  region : String
  accountID : String
  cluster : String
  role : String
  deriving DecidableEq, Repr

/-- The template `fmt.Sprintf("arn:aws:events:%s:%s:rule/", *region, accountID)`. -/
def ruleArnPrefix (ctx : Context) : String :=
  "arn:aws:events:" ++ ctx.region ++ ":" ++ ctx.accountID ++ ":rule/"

/-- The template `fmt.Sprintf("arn:aws:ecs:%s:%s:cluster/%s", *region, accountID, *cluster)`. -/
def clusterArn (ctx : Context) : String :=
  "arn:aws:ecs:" ++ ctx.region ++ ":" ++ ctx.accountID ++ ":cluster/" ++ ctx.cluster

/-- The template `fmt.Sprintf("arn:aws:ecs:%s:%s:task-definition/", *region, accountID)`. -/
def taskDefArnPrefix (ctx : Context) : String :=
  "arn:aws:ecs:" ++ ctx.region ++ ":" ++ ctx.accountID ++ ":task-definition/"

/-- The template `fmt.Sprintf("arn:aws:iam::%s:role/", accountID)`. -/
def roleArnPrefix (ctx : Context) : String :=
  "arn:aws:iam::" ++ ctx.accountID ++ ":role/"

/-- The template `fmt.Sprintf("%s%s", roleArnPrefix, *role)`. -/
def roleArn (ctx : Context) : String :=
  roleArnPrefix ctx ++ ctx.role

/-! ## The override loop (lines 133-148) -/

/-- Go map assignment `m[k] = v`. -/
def mapSet (m : List (String × String)) (k v : String) : List (String × String) :=
  match m with
  | [] => [(k, v)]
  | (k', v') :: rest => if k' = k then (k, v) :: rest else (k', v') :: mapSet rest k v

/-- Go map read `m[k]` with the comma-ok form. -/
def mapGet (m : List (String × String)) (k : String) : Option String :=
  match m with
  | [] => none
  | (k', v') :: rest => if k' = k then some v' else mapGet rest k

/-- Lines 135-138: `for _, c := range co.Command { cmd = append(cmd, *c) }`. -/
def commandLoop (cs : List (Option String)) (cmd : List String) : Flow (List String) :=
  match cs with
  | [] => .next cmd
  | c :: rest => do
    let s ← deref c
    commandLoop rest (cmd ++ [s])

/-- Lines 139-142: `for _, kv := range co.Environment { env[*kv.Name] = *kv.Value }`,
with `env` the entries of the map allocated at line 139. -/
def environmentLoop (kvs : List (Option ecs.KeyValuePair)) (env : List (String × String)) :
    Flow (List (String × String)) :=
  match kvs with
  | [] => .next env
  | kv :: rest => do
    let kv ← deref kv
    let k ← deref kv.Name
    let v ← deref kv.Value
    environmentLoop rest (mapSet env k v)

/-- Lines 134-148: `for _, co := range taskOv.ContainerOverrides { ... }`, with
`name` the value of `*r.Name`. -/
def containerOverrideLoop (name : String) (cos : List (Option ecs.ContainerOverride))
    (contOverrides : List ContainerOverride) : Flow (List ContainerOverride) :=
  match cos with
  | [] => .next contOverrides
  | co :: rest => do
    let co ← deref co
    let cmd ← commandLoop co.Command []
    let env ← environmentLoop co.Environment []
    containerOverrideLoop name rest
      (contOverrides ++ [{ Name := name, Command := cmd, Environment := some env }])

/-! ## The target loop (lines 103-151) -/

/-- Lines 105-149, the body of `for _, t := range ta.Targets`: the `Target`
appended at line 150, or the way the body is left early. `decode` is
`json.Unmarshal` into an `ecs.TaskOverride`. -/
def targetBody (ctx : Context) (decode : String → Except String ecs.TaskOverride)
    (r : cloudwatchevents.Rule) (t : cloudwatchevents.Target) : Flow Target := do
  let arn ← deref t.Arn
  continueRuleListIf (arn != clusterArn ctx)
  let id ← deref t.Id
  let name ← deref r.Name
  let targetID := if id = name then "" else id
  continueRuleListIf t.EcsParameters.isNone
  let ecsParams ← deref t.EcsParameters
  let role ← deref t.RoleArn
  let targetRole := if role ≠ roleArn ctx then trimPrefix role (roleArnPrefix ctx) else ""
  let taskCount ← deref ecsParams.TaskCount
  let targetTaskCount := if taskCount ≠ 1 then taskCount else 0
  let taskDefinitionArn ← deref ecsParams.TaskDefinitionArn
  let taskDefinition := trimPrefix taskDefinitionArn (taskDefArnPrefix ctx)
  let input ← deref t.Input
  let taskOv ← orReturn (decode input)
  let contOverrides ← containerOverrideLoop name taskOv.ContainerOverrides []
  return { TargetID := targetID, Role := targetRole, TaskCount := targetTaskCount,
           TaskDefinition := taskDefinition, ContainerOverrides := contOverrides }

/-- Lines 103-151: `for _, t := range ta.Targets { ...; targets = append(targets, target) }`. -/
def targetLoop (ctx : Context) (decode : String → Except String ecs.TaskOverride)
    (r : cloudwatchevents.Rule) (ts : List cloudwatchevents.Target) (targets : List Target) :
    Flow (List Target) :=
  match ts with
  | [] => .next targets
  | t :: rest => do
    let target ← targetBody ctx decode r t
    targetLoop ctx decode r rest (targets ++ [target])

/-! ## The rule loop (lines 92-170) -/

/-- Lines 94-168, the body of `for _, r := range ruleList.Rules`: the `Rule`
appended at line 169, or the way the body is left early. `listTargets` is
`svc.ListTargetsByRuleWithContext` applied to `Rule: r.Name`. -/
def ruleBody (ctx : Context)
    (listTargets : Option String → Except String (List cloudwatchevents.Target))
    (decode : String → Except String ecs.TaskOverride)
    (r : cloudwatchevents.Rule) : Flow Rule := do
  let arn ← deref r.Arn
  continueRuleListIf (!hasPrefix arn (ruleArnPrefix ctx))
  let ta ← orReturn (listTargets r.Name)
  let targets ← targetLoop ctx decode r ta []
  let name ← deref r.Name
  let description ← deref r.Description
  let scheduleExpression ← deref r.ScheduleExpression
  let state ← deref r.State
  let ru : Rule := { Name := name, Description := description,
                     ScheduleExpression := scheduleExpression,
                     Disabled := decide (state = "DISABLED"), Target := none }
  match targets with
  | [] => Flow.skipRule
  | [target] => return { ru with Target := some target }
  | _ :: _ :: _ => Flow.skipRule

/-- The entry one pass of the loop body appends to `rules` for `r`, if any. -/
def ruleEntry (ctx : Context)
    (listTargets : Option String → Except String (List cloudwatchevents.Target))
    (decode : String → Except String ecs.TaskOverride)
    (r : cloudwatchevents.Rule) : Option Rule :=
  match ruleBody ctx listTargets decode r with
  | .next ru => some ru
  | _ => none

/-- Lines 92-170: the `RuleList` loop, with `rules` the slice built so far. -/
def ruleLoop (ctx : Context)
    (listTargets : Option String → Except String (List cloudwatchevents.Target))
    (decode : String → Except String ecs.TaskOverride)
    (rs : List cloudwatchevents.Rule) (rules : List Rule) : Outcome :=
  match rs with
  | [] => .ok rules
  | r :: rest =>
    match ruleBody ctx listTargets decode r with
    | .next ru => ruleLoop ctx listTargets decode rest (rules ++ [ru])
    | .skipRule => ruleLoop ctx listTargets decode rest rules
    | .fail e => .error e
    | .panic => .panic

/-- Lines 84-171: the value of `rules` assigned to `c.Rules`, starting from the
nil slice. -/
def dumpRules (ctx : Context)
    (listTargets : Option String → Except String (List cloudwatchevents.Target))
    (decode : String → Except String ecs.TaskOverride)
    (ruleList : List cloudwatchevents.Rule) : Outcome :=
  ruleLoop ctx listTargets decode ruleList []

/-! ## The whole command (lines 28-177) -/

/-- Modelled from the spec: the `Config` struct declaration is not in
`cmd_dump.go`. The fields are those `run` reads and assigns: `Region`,
`Cluster` and `Role` (promoted from the embedded `BaseConfig`, taken to be
allocated as line 55 allocates it) and `Rules`. -/
structure Config where
  Region : String
  Cluster : String
  Role : String
  Rules : List Rule
  deriving DecidableEq, Repr

/-- The values of the four flags after `fs.Parse(argv)` (lines 31-39). -/
structure Flags where
  conf : String
  region : String
  cluster : String
  role : String
  deriving DecidableEq, Repr

/-- Modelled from the spec: the value of `getApp(ctx)`, whose declaration is not
in `cmd_dump.go`; `run` reads its `Config` (a pointer that may be nil) and its
`AccountID`. -/
structure App where
  Config : Option Config
  AccountID : String
  deriving DecidableEq, Repr

/-- The client `cloudwatchevents.New(sess, &aws.Config{Region: region})`: the
result of its rule listing and its target lister. -/
structure Service where
  ListRules : Except String (List cloudwatchevents.Rule)
  ListTargetsByRule : Option String → Except String (List cloudwatchevents.Target)

/-- The collaborators of `run` that are not in `cmd_dump.go`: `os.Open` (path
to contents), `LoadConfig` (contents and account identifier to a configuration
pointer), the constant `defaultRole`, `cloudwatchevents.New` (by region),
`json.Unmarshal` into an `ecs.TaskOverride` and `yaml.Marshal`. -/
structure Collaborators where
  Open : String → Except String String
  LoadConfig : String → String → Except String (Option Config)
  defaultRole : String
  New : String → Service
  Unmarshal : String → Except String ecs.TaskOverride
  Marshal : Config → Except String String

/-- The error `run` returns, by the statement that returns it: flag parsing
(line 38), `os.Open` (line 46), `LoadConfig` (line 51), the context check
(line 73), `ListRules` (line 82), the `RuleList` loop (lines 101 and 131) and
`yaml.Marshal` (line 174). -/
inductive RunError where
  | flags (err : String)
  | osOpen (err : String)
  | loadConfig (err : String)
  | context
  | listRules (err : String)
  | ruleList (err : String)
  | marshal (err : String)
  deriving DecidableEq, Repr

/-- How a stretch of `run` ends: with a value, with a returned error, or with a
nil-pointer panic. -/
inductive Pass (α : Type) where
  | ok (a : α)
  | error (err : RunError)
  | panic
  deriving DecidableEq, Repr

/-- What a call of `run` leaves behind: how it ended and what it wrote to
`outStream`, in order. -/
structure RunResult where
  returned : Pass Unit
  outStream : List String
  deriving DecidableEq, Repr

/-- Line 55: `&Config{BaseConfig: &BaseConfig{}}`. -/
def emptyConfig : Config :=
  { Region := "", Cluster := "", Role := "", Rules := [] }

/-- Lines 40-56: the configuration `c` the command works on, loaded from the
file named by `-conf` if there is one, else the application's, else an empty
one. -/
def loadStage (w : Collaborators) (a : App) (flags : Flags) : Except RunError Config :=
  if flags.conf ≠ "" then
    match w.Open flags.conf with
    | .error e => .error (.osOpen e)
    | .ok f =>
      match w.LoadConfig f a.AccountID with
      | .error e => .error (.loadConfig e)
      | .ok c => .ok (c.getD emptyConfig)
  else .ok (a.Config.getD emptyConfig)

/-- Lines 57-76: the resolved `*region`, `*cluster` and `*role` (with
`accountID`), and `c` after the assignments to `c.Role`, `c.Region` and
`c.Cluster`; or the error of line 73. -/
def resolveStage (defaultRole accountID : String) (flags : Flags) (c : Config) :
    Except RunError (Context × Config) :=
  let region := if flags.region = "" then c.Region else flags.region
  let cluster := if flags.cluster = "" then c.Cluster else flags.cluster
  let cRole := if c.Role = "" then flags.role else c.Role
  let role := if flags.role = "" then (if cRole = "" then defaultRole else cRole) else flags.role
  if region = "" ∨ cluster = "" then .error .context
  else .ok ({ region := region, accountID := accountID, cluster := cluster, role := role },
            { c with Region := region, Cluster := cluster, Role := cRole })

/-- Lines 28-171: the configuration handed to `yaml.Marshal`, with `parsed` the
outcome of `fs.Parse(argv)`. -/
def dumpConfig (w : Collaborators) (a : App) (parsed : Except String Flags) : Pass Config :=
  match parsed with
  | .error e => .error (.flags e)
  | .ok flags =>
    match loadStage w a flags with
    | .error e => .error e
    | .ok c =>
      match resolveStage w.defaultRole a.AccountID flags c with
      | .error e => .error e
      | .ok (ctx, c) =>
        match (w.New ctx.region).ListRules with
        | .error e => .error (.listRules e)
        | .ok ruleList =>
          match dumpRules ctx (w.New ctx.region).ListTargetsByRule w.Unmarshal ruleList with
          | .ok rules => .ok { c with Rules := rules }
          | .error e => .error (.ruleList e)
          | .panic => .panic

/-- The method `cmdDump.run`: lines 172-177 marshal the configuration and print
it to `outStream`. -/
def run (w : Collaborators) (a : App) (parsed : Except String Flags) : RunResult :=
  match dumpConfig w a parsed with
  | .ok c =>
    match w.Marshal c with
    | .ok bs => { returned := .ok (), outStream := [bs] }
    | .error e => { returned := .error (.marshal e), outStream := [] }
  | .error e => { returned := .error e, outStream := [] }
  | .panic => { returned := .panic, outStream := [] }

/-! ## Predicates on the remote listing -/

/-- The rule's identifier starts with the rule-namespace prefix (line 94 does
not `continue`). -/
def InNamespace (ctx : Context) (r : cloudwatchevents.Rule) : Prop :=
  ∃ arn, r.Arn = some arn ∧ hasPrefix arn (ruleArnPrefix ctx) = true

/-- A decoded payload with no nil entry: every container override, command
argument and environment pair is present, with its name and value. -/
def completeOverride (ov : ecs.TaskOverride) : Bool :=
  ov.ContainerOverrides.all fun co =>
    match co with
    | none => false
    | some co =>
      co.Command.all Option.isSome &&
      co.Environment.all fun kv =>
        match kv with
        | none => false
        | some kv => kv.Name.isSome && kv.Value.isSome

/-- A valid cluster ECS target: its resource identifier is the active cluster's,
it carries ECS parameters, its payload decodes, and no dereferenced field is
absent. -/
def ValidClusterTarget (ctx : Context) (decode : String → Except String ecs.TaskOverride)
    (t : cloudwatchevents.Target) : Prop :=
  t.Arn = some (clusterArn ctx) ∧ t.Id.isSome = true ∧ t.RoleArn.isSome = true ∧
  (∃ p, t.EcsParameters = some p ∧ p.TaskCount.isSome = true ∧
    p.TaskDefinitionArn.isSome = true) ∧
  ∃ input ov, t.Input = some input ∧ decode input = .ok ov ∧ completeOverride ov = true

/-- The one-target qualification of a rule: in the namespace, exactly one
attached target, whose resource identifier is the active cluster's and which
carries ECS parameters. -/
def Qualifies (ctx : Context)
    (listTargets : Option String → Except String (List cloudwatchevents.Target))
    (r : cloudwatchevents.Rule) : Prop :=
  InNamespace ctx r ∧
  ∃ t, listTargets r.Name = .ok [t] ∧ t.Arn = some (clusterArn ctx) ∧
    t.EcsParameters.isSome = true

/-- The target passes the checks that precede the decoding of its payload: its
resource identifier is the active cluster's, it carries ECS parameters, and the
fields dereferenced on the way (identifier, role identifier, task count,
task-definition identifier) are present. -/
def PassesChecks (ctx : Context) (t : cloudwatchevents.Target) : Prop :=
  t.Arn = some (clusterArn ctx) ∧ t.Id.isSome = true ∧ t.RoleArn.isSome = true ∧
  ∃ p, t.EcsParameters = some p ∧ p.TaskCount.isSome = true ∧
    p.TaskDefinitionArn.isSome = true

/-- The target disqualifies its rule: its resource identifier is not the active
cluster's (line 105), or it is the cluster's and the target has no ECS
parameters (line 113). -/
def Disqualifies (ctx : Context) (t : cloudwatchevents.Target) : Prop :=
  (∃ arn, t.Arn = some arn ∧ arn ≠ clusterArn ctx) ∨
  (t.Arn = some (clusterArn ctx) ∧ t.Id.isSome = true ∧ t.EcsParameters = none)

/-! ## Environment decoding: the reading of the claim -/

/-- Follows the words of the claim on environment decoding: the value of the
last entry of `pairs` that carries the name `k`, if there is one. -/
def lastValue (pairs : List (String × String)) (k : String) : Option String :=
  match pairs with
  | [] => none
  | (k', v) :: rest =>
    match lastValue rest k with
    | some v' => some v'
    | none => if k' = k then some v else none

/-- The payload entry with name `kv.1` and value `kv.2`, as an element of
`co.Environment`. -/
def keyValue (kv : String × String) : Option ecs.KeyValuePair :=
  some { Name := some kv.1, Value := some kv.2 }

/-- The emitted override `o` decodes the payload override `co`: the payload's
environment is a list of name/value pairs, the emitted map is allocated, its
keys are distinct and are exactly the names of the pairs, each key maps to the
value of the last pair carrying it, no pair gives the empty map, and the
emitted command is the payload's command in the same order. -/
def DecodesTo (co : Option ecs.ContainerOverride) (o : ContainerOverride) : Prop :=
  ∃ payload pairs env,
    co = some payload ∧ payload.Environment = pairs.map keyValue ∧
    o.Environment = some env ∧
    (env.map Prod.fst).Nodup ∧
    (∀ k, k ∈ env.map Prod.fst ↔ k ∈ pairs.map Prod.fst) ∧
    (∀ k, mapGet env k = lastValue pairs k) ∧
    (pairs = [] → env = []) ∧
    payload.Command = o.Command.map some

/-! ## Sample remote state -/

/-- A resolved context. -/
def exampleContext : Context :=
  { region := "us-east-1", accountID := "123456789012", cluster := "batch",
    role := "ecsEventsRole" }

/-- A decoder that accepts the empty object and the one-override payload of
the sample state, and rejects everything else. -/
def exampleDecode (input : String) : Except String ecs.TaskOverride :=
  if input = "\x7b\x7d" then .ok { ContainerOverrides := [] }
  else if input = "\x7b\"containerOverrides\":[\x7b\"name\":\"app\",\"command\":[\"run\"]\x7d]\x7d" then
    .ok { ContainerOverrides :=
            [some { Name := some "app", Command := [some "run"], Environment := [] }] }
  else .error "unexpected end of JSON input"

/-- An in-namespace rule named `job` with the given state string. -/
def exampleRule (state : String) : cloudwatchevents.Rule :=
  { Arn := some "arn:aws:events:us-east-1:123456789012:rule/job",
    Name := some "job", Description := some "a job",
    ScheduleExpression := some "rate(1 hour)", State := some state }

/-- A cluster ECS target with the given identifier, role identifier, task
count and payload. -/
def exampleTarget (id role : String) (count : Int) (input : String) :
    cloudwatchevents.Target :=
  { Arn := some "arn:aws:ecs:us-east-1:123456789012:cluster/batch",
    Id := some id, RoleArn := some role,
    EcsParameters := some
      { TaskCount := some count,
        TaskDefinitionArn :=
          some "arn:aws:ecs:us-east-1:123456789012:task-definition/app:3" },
    Input := some input }

/-- A target attached to the rule but pointing at another cluster. -/
def exampleOtherClusterTarget : cloudwatchevents.Target :=
  { Arn := some "arn:aws:ecs:us-east-1:123456789012:cluster/other",
    Id := some "job", RoleArn := some "arn:aws:iam::123456789012:role/ecsEventsRole",
    EcsParameters := some
      { TaskCount := some 1,
        TaskDefinitionArn :=
          some "arn:aws:ecs:us-east-1:123456789012:task-definition/app:3" },
    Input := some "not json" }

/-- A target lister that returns the same targets for every rule. -/
def exampleLister (ts : List cloudwatchevents.Target) :
    Option String → Except String (List cloudwatchevents.Target) :=
  fun _ => .ok ts

/-- An out-of-namespace rule (another region), with no optional field set. -/
def exampleForeignRule : cloudwatchevents.Rule :=
  { Arn := some "arn:aws:events:eu-west-1:123456789012:rule/job", Name := some "job",
    Description := none, ScheduleExpression := none, State := none }

/-- The default cluster ECS target of the sample state: id `job`, the context
role, task count 1 and the empty payload. -/
def exampleDefaultTarget : cloudwatchevents.Target :=
  exampleTarget "job" "arn:aws:iam::123456789012:role/ecsEventsRole" 1 "\x7b\x7d"

/-- The rule emitted for `exampleRule "ENABLED"` with `exampleDefaultTarget`. -/
def exampleEmittedRule : Rule :=
  { Name := "job", Description := "a job", ScheduleExpression := "rate(1 hour)",
    Disabled := false,
    Target := some { TargetID := "", Role := "", TaskCount := 0, TaskDefinition := "app:3",
                     ContainerOverrides := [] } }

/-- A decoded payload whose environment list names `ENV` twice. -/
def exampleEnvOverride : ecs.TaskOverride :=
  { ContainerOverrides :=
      [some { Name := some "app", Command := [some "run", some "--once"],
              Environment :=
                [some { Name := some "ENV", Value := some "dev" },
                 some { Name := some "MODE", Value := some "batch" },
                 some { Name := some "ENV", Value := some "prod" }] }] }

/-- Sample collaborators: no configuration file can be opened, the default role
is `ecsEventsRole`, every region lists `ruleList` with `targets` attached to
each rule, payloads are decoded by `exampleDecode`, and marshalling gives the
text `document`. -/
def exampleCollaborators (ruleList : List cloudwatchevents.Rule)
    (targets : List cloudwatchevents.Target) : Collaborators :=
  { Open := fun _ => .error "no such file or directory",
    LoadConfig := fun _ _ => .error "unreadable",
    defaultRole := "ecsEventsRole",
    New := fun _ => { ListRules := .ok ruleList, ListTargetsByRule := exampleLister targets },
    Unmarshal := exampleDecode,
    Marshal := fun _ => .ok "document" }

/-- A cluster ECS target whose payload is not decodable. -/
def exampleUndecodableTarget : cloudwatchevents.Target :=
  exampleTarget "job" "arn:aws:iam::123456789012:role/ecsEventsRole" 1 "not json"

/-- Sample flags: region and cluster given on the command line, no role. -/
def exampleFlags : Flags :=
  { conf := "", region := "us-east-1", cluster := "batch", role := "" }

/-- Sample application: no configuration, the account of the sample state. -/
def exampleApp : App :=
  { Config := none, AccountID := "123456789012" }

/-- Sample flags without a region: only the cluster is given. -/
def exampleFlagsNoRegion : Flags :=
  { conf := "", region := "", cluster := "batch", role := "" }

/-- Sample flags that give the role `cliRole` on the command line. -/
def exampleFlagsCliRole : Flags :=
  { conf := "", region := "", cluster := "", role := "cliRole" }

/-- Sample application whose configuration declares the role `confRole`. -/
def exampleAppConfRole : App :=
  { Config := some { Region := "us-east-1", Cluster := "batch", Role := "confRole", Rules := [] },
    AccountID := "123456789012" }

/-! ## Control-flow lemmas -/

@[simp] theorem Flow.bind_next {α β : Type} (a : α) (f : α → Flow β) :
    (Flow.next a >>= f) = f a := rfl

@[simp] theorem Flow.bind_skipRule {α β : Type} (f : α → Flow β) :
    ((Flow.skipRule : Flow α) >>= f) = Flow.skipRule := rfl

@[simp] theorem Flow.bind_fail {α β : Type} (e : String) (f : α → Flow β) :
    ((Flow.fail e : Flow α) >>= f) = Flow.fail e := rfl

@[simp] theorem Flow.bind_panic {α β : Type} (f : α → Flow β) :
    ((Flow.panic : Flow α) >>= f) = Flow.panic := rfl

@[simp] theorem Flow.pure_eq {α : Type} (a : α) : (pure a : Flow α) = Flow.next a := rfl

@[simp] theorem deref_some {α : Type} (a : α) : deref (some a) = Flow.next a := rfl

@[simp] theorem deref_none {α : Type} : deref (none : Option α) = Flow.panic := rfl

@[simp] theorem orReturn_ok {α : Type} (a : α) : orReturn (Except.ok a) = Flow.next a := rfl

@[simp] theorem orReturn_error {α : Type} (e : String) :
    orReturn (Except.error e : Except String α) = Flow.fail e := rfl

@[simp] theorem continueRuleListIf_true : continueRuleListIf true = Flow.skipRule := rfl

@[simp] theorem continueRuleListIf_false : continueRuleListIf false = Flow.next () := rfl

theorem Flow.bind_eq_next_iff {α β : Type} (x : Flow α) (f : α → Flow β) (b : β) :
    (x >>= f) = Flow.next b ↔ ∃ a, x = Flow.next a ∧ f a = Flow.next b := by
  cases x <;> simp

theorem deref_eq_next_iff {α : Type} (p : Option α) (a : α) :
    deref p = Flow.next a ↔ p = some a := by
  cases p <;> simp

theorem orReturn_eq_next_iff {α : Type} (x : Except String α) (a : α) :
    orReturn x = Flow.next a ↔ x = Except.ok a := by
  cases x <;> simp

theorem continueRuleListIf_eq_next_iff (c : Bool) (u : Unit) :
    continueRuleListIf c = Flow.next u ↔ c = false := by
  cases c <;> simp

/-! ## The loop body of a target -/

/-- A target is appended exactly when every dereferenced field is present, the
resource identifier is the cluster's and the payload decodes; the appended
value is then the one spelled out here. -/
theorem targetBody_eq_next_iff (ctx : Context)
    (decode : String → Except String ecs.TaskOverride)
    (r : cloudwatchevents.Rule) (t : cloudwatchevents.Target) (tg : Target) :
    targetBody ctx decode r t = .next tg ↔
    ∃ id name p role tc tda inp ov cos,
      t.Arn = some (clusterArn ctx) ∧ t.Id = some id ∧ r.Name = some name ∧
      t.EcsParameters = some p ∧ t.RoleArn = some role ∧ p.TaskCount = some tc ∧
      p.TaskDefinitionArn = some tda ∧ t.Input = some inp ∧ decode inp = .ok ov ∧
      containerOverrideLoop name ov.ContainerOverrides [] = .next cos ∧
      tg = { TargetID := if id = name then "" else id,
             Role := if role ≠ roleArn ctx then trimPrefix role (roleArnPrefix ctx) else "",
             TaskCount := if tc ≠ 1 then tc else 0,
             TaskDefinition := trimPrefix tda (taskDefArnPrefix ctx),
             ContainerOverrides := cos } := by
  simp only [targetBody, Flow.bind_eq_next_iff, deref_eq_next_iff, orReturn_eq_next_iff,
    continueRuleListIf_eq_next_iff, Flow.pure_eq, Flow.next.injEq]
  constructor
  · rintro ⟨a, ha, u, hu, id, hid, name, hname, u2, hu2, p, hp, role, hrole, tc, htc, tda, htda,
      inp, hinp, ov, hov, cos, hcos, rfl⟩
    simp at hu
    subst hu
    exact ⟨id, name, p, role, tc, tda, inp, ov, cos, ha, hid, hname, hp, hrole, htc, htda, hinp,
      hov, hcos, rfl⟩
  · rintro ⟨id, name, p, role, tc, tda, inp, ov, cos, ha, hid, hname, hp, hrole, htc, htda, hinp,
      hov, hcos, rfl⟩
    exact ⟨_, ha, (), by simp, id, hid, name, hname, (), by simp [hp], p, hp, role, hrole, tc, htc,
      tda, htda, inp, hinp, ov, hov, cos, hcos, rfl⟩

/-! ## The target loop -/

theorem targetLoop_eq_next_iff (ctx : Context)
    (decode : String → Except String ecs.TaskOverride)
    (r : cloudwatchevents.Rule) (ts : List cloudwatchevents.Target) (acc out : List Target) :
    targetLoop ctx decode r ts acc = .next out ↔
      ∃ tgs, List.Forall₂ (fun t tg => targetBody ctx decode r t = .next tg) ts tgs ∧
        out = acc ++ tgs := by
  induction ts generalizing acc with
  | nil => simp [targetLoop, eq_comm]
  | cons t rest ih =>
    simp only [targetLoop, Flow.bind_eq_next_iff, ih, List.forall₂_cons_left_iff]
    constructor
    · rintro ⟨tg, htg, tgs, hall, rfl⟩
      exact ⟨tg :: tgs, ⟨tg, tgs, htg, hall, rfl⟩, by simp⟩
    · rintro ⟨_, ⟨tg, tgs, htg, hall, rfl⟩, rfl⟩
      exact ⟨tg, htg, tgs, hall, by simp⟩

theorem targetLoop_skipRule (ctx : Context)
    (decode : String → Except String ecs.TaskOverride)
    (r : cloudwatchevents.Rule) (ts1 ts2 : List cloudwatchevents.Target)
    (bad : cloudwatchevents.Target) (acc : List Target)
    (h1 : ∀ t ∈ ts1, ∃ tg, targetBody ctx decode r t = .next tg)
    (hbad : targetBody ctx decode r bad = .skipRule) :
    targetLoop ctx decode r (ts1 ++ bad :: ts2) acc = .skipRule := by
  induction ts1 generalizing acc with
  | nil => simp [targetLoop, hbad]
  | cons t rest ih =>
    obtain ⟨tg, htg⟩ := h1 t (by simp)
    simp only [List.cons_append, targetLoop, htg, Flow.bind_next]
    exact ih _ (fun t ht => h1 t (by simp [ht]))

/-! ## The rule loop -/

theorem ruleLoop_skipRule (ctx : Context)
    (listTargets : Option String → Except String (List cloudwatchevents.Target))
    (decode : String → Except String ecs.TaskOverride)
    (pre post : List cloudwatchevents.Rule) (r : cloudwatchevents.Rule) (acc : List Rule)
    (h : ruleBody ctx listTargets decode r = .skipRule) :
    ruleLoop ctx listTargets decode (pre ++ r :: post) acc =
      ruleLoop ctx listTargets decode (pre ++ post) acc := by
  induction pre generalizing acc with
  | nil => simp [ruleLoop, h]
  | cons x rest ih =>
    simp only [List.cons_append, ruleLoop]
    cases ruleBody ctx listTargets decode x <;> simp [ih]

theorem ruleLoop_eq_ok (ctx : Context)
    (listTargets : Option String → Except String (List cloudwatchevents.Target))
    (decode : String → Except String ecs.TaskOverride)
    (rs : List cloudwatchevents.Rule) (acc out : List Rule)
    (h : ruleLoop ctx listTargets decode rs acc = .ok out) :
    out = acc ++ rs.filterMap (ruleEntry ctx listTargets decode) ∧
      ∀ r ∈ rs, ruleBody ctx listTargets decode r = .skipRule ∨
        ∃ ru, ruleBody ctx listTargets decode r = .next ru := by
  induction rs generalizing acc with
  | nil => simp [ruleLoop] at h; simp [h]
  | cons x rest ih =>
    simp only [ruleLoop] at h
    cases hx : ruleBody ctx listTargets decode x with
    | next ru =>
      rw [hx] at h
      obtain ⟨h1, h2⟩ := ih _ h
      refine ⟨by simp [h1, List.filterMap_cons, ruleEntry, hx], ?_⟩
      intro r hr
      rcases List.mem_cons.mp hr with rfl | hr
      · exact Or.inr ⟨ru, hx⟩
      · exact h2 r hr
    | skipRule =>
      rw [hx] at h
      obtain ⟨h1, h2⟩ := ih _ h
      refine ⟨by simp [h1, List.filterMap_cons, ruleEntry, hx], ?_⟩
      intro r hr
      rcases List.mem_cons.mp hr with rfl | hr
      · exact Or.inl hx
      · exact h2 r hr
    | fail e => rw [hx] at h; simp at h
    | panic => rw [hx] at h; simp at h

/-- A rule is appended exactly when it is in the namespace, it has a single
target, that target is appended by `targetBody`, and every dereferenced rule
field is present. -/
theorem ruleBody_eq_next_iff (ctx : Context)
    (listTargets : Option String → Except String (List cloudwatchevents.Target))
    (decode : String → Except String ecs.TaskOverride)
    (r : cloudwatchevents.Rule) (ru : Rule) :
    ruleBody ctx listTargets decode r = .next ru ↔
      ∃ arn t tg name description scheduleExpression state,
        r.Arn = some arn ∧ hasPrefix arn (ruleArnPrefix ctx) = true ∧
        listTargets r.Name = .ok [t] ∧ targetBody ctx decode r t = .next tg ∧
        r.Name = some name ∧ r.Description = some description ∧
        r.ScheduleExpression = some scheduleExpression ∧ r.State = some state ∧
        ru = { Name := name, Description := description,
               ScheduleExpression := scheduleExpression,
               Disabled := decide (state = "DISABLED"), Target := some tg } := by
  simp only [ruleBody, Flow.bind_eq_next_iff, deref_eq_next_iff, orReturn_eq_next_iff,
    continueRuleListIf_eq_next_iff, targetLoop_eq_next_iff, List.nil_append]
  constructor
  · rintro ⟨arn, harn, u, hu, ta, hta, targets, ⟨tgs, hall, htgs⟩, name, hname, d, hd, se, hse,
      st, hst, hm⟩
    subst htgs
    match targets, hall, hm with
    | [tg], hall, hm =>
      obtain ⟨t, ts, rfl⟩ : ∃ t ts, ta = t :: ts := by
        cases hall; exact ⟨_, _, rfl⟩
      rw [List.forall₂_cons] at hall
      obtain ⟨htg, hnil⟩ := hall
      have hts : ts = [] := by cases hnil; rfl
      subst hts
      simp only [Flow.pure_eq, Flow.next.injEq] at hm
      exact ⟨arn, t, tg, name, d, se, st, harn, by simpa using hu, hta, htg, hname, hd, hse, hst,
        hm.symm⟩
  · rintro ⟨arn, t, tg, name, d, se, st, harn, hpre, hta, htg, hname, hd, hse, hst, rfl⟩
    exact ⟨arn, harn, (), by simp [hpre], [t], hta, [tg], ⟨[tg], by simp [htg], rfl⟩, name, hname,
      d, hd, se, hse, st, hst, rfl⟩

/-! ## String lemmas -/

theorem hasPrefix_iff (s pre : String) :
    hasPrefix s pre = true ↔ ∃ suffix, s = pre ++ suffix := by
  unfold hasPrefix
  rw [List.isPrefixOf_iff_prefix]
  constructor
  · rintro ⟨t, ht⟩
    exact ⟨⟨t⟩, String.ext (by simp [String.data_append, ht])⟩
  · rintro ⟨suffix, rfl⟩
    exact ⟨suffix.data, by simp [String.data_append]⟩

theorem hasPrefix_append (pre suffix : String) : hasPrefix (pre ++ suffix) pre = true :=
  (hasPrefix_iff _ _).mpr ⟨suffix, rfl⟩

theorem trimPrefix_append (pre suffix : String) : trimPrefix (pre ++ suffix) pre = suffix := by
  simp [trimPrefix, hasPrefix_append, String.data_append]

theorem string_append_left_cancel (pre a b : String) (h : pre ++ a = pre ++ b) : a = b := by
  have := congrArg String.data h
  simp only [String.data_append, List.append_cancel_left_eq] at this
  exact String.ext this

/-! ## The override loops on payloads without nil entries -/

theorem commandLoop_complete (cs : List (Option String)) (acc : List String)
    (h : cs.all Option.isSome = true) : ∃ out, commandLoop cs acc = .next out := by
  induction cs generalizing acc with
  | nil => exact ⟨acc, rfl⟩
  | cons c rest ih =>
    rw [List.all_cons, Bool.and_eq_true] at h
    obtain ⟨s, rfl⟩ := Option.isSome_iff_exists.mp h.1
    simpa [commandLoop] using ih _ h.2

theorem environmentLoop_complete (kvs : List (Option ecs.KeyValuePair))
    (acc : List (String × String))
    (h : (kvs.all fun kv =>
      match kv with
      | none => false
      | some kv => kv.Name.isSome && kv.Value.isSome) = true) :
    ∃ out, environmentLoop kvs acc = .next out := by
  induction kvs generalizing acc with
  | nil => exact ⟨acc, rfl⟩
  | cons kv rest ih =>
    rw [List.all_cons, Bool.and_eq_true] at h
    obtain ⟨hkv, hrest⟩ := h
    rcases kv with _ | ⟨_ | k, _ | v⟩ <;> simp at hkv
    simpa [environmentLoop] using ih _ hrest

theorem containerOverrideLoop_complete (name : String)
    (cos : List (Option ecs.ContainerOverride)) (acc : List ContainerOverride)
    (h : completeOverride { ContainerOverrides := cos } = true) :
    ∃ out, containerOverrideLoop name cos acc = .next out := by
  induction cos generalizing acc with
  | nil => exact ⟨acc, rfl⟩
  | cons co rest ih =>
    simp only [completeOverride, List.all_cons, Bool.and_eq_true] at h
    obtain ⟨hco, hrest⟩ := h
    rcases co with _ | co
    · simp at hco
    · simp only [Bool.and_eq_true] at hco
      obtain ⟨cmd, hcmd⟩ := commandLoop_complete co.Command [] hco.1
      obtain ⟨env, henv⟩ := environmentLoop_complete co.Environment [] hco.2
      simp only [containerOverrideLoop, deref_some, Flow.bind_next, hcmd, henv]
      exact ih _ (by simpa [completeOverride] using hrest)

/-- Every override appended by the loop is named after the rule. -/
theorem containerOverrideLoop_name (name : String)
    (cos : List (Option ecs.ContainerOverride)) (acc out : List ContainerOverride)
    (h : containerOverrideLoop name cos acc = .next out) :
    ∀ co ∈ out, co ∈ acc ∨ co.Name = name := by
  induction cos generalizing acc with
  | nil =>
    simp only [containerOverrideLoop, Flow.next.injEq] at h
    subst h
    exact fun co hco => Or.inl hco
  | cons c rest ih =>
    simp only [containerOverrideLoop, Flow.bind_eq_next_iff, deref_eq_next_iff] at h
    obtain ⟨c', -, cmd, -, env, -, hrest⟩ := h
    intro co hco
    rcases ih _ hrest co hco with hmem | hname
    · rcases List.mem_append.mp hmem with hacc | hnew
      · exact Or.inl hacc
      · right
        simp only [List.mem_singleton] at hnew
        rw [hnew]
    · exact Or.inr hname

theorem containerOverrideLoop_length (name : String)
    (cos : List (Option ecs.ContainerOverride)) (acc out : List ContainerOverride)
    (h : containerOverrideLoop name cos acc = .next out) :
    out.length = acc.length + cos.length := by
  induction cos generalizing acc with
  | nil =>
    simp only [containerOverrideLoop, Flow.next.injEq] at h
    simp [h]
  | cons c rest ih =>
    simp only [containerOverrideLoop, Flow.bind_eq_next_iff, deref_eq_next_iff] at h
    obtain ⟨c', -, cmd, -, env, -, hrest⟩ := h
    rw [ih _ hrest]
    simp
    omega

/-- The loop does not read the names the payload carries. -/
theorem containerOverrideLoop_rename (name : String)
    (rename : ecs.ContainerOverride → Option String)
    (cos : List (Option ecs.ContainerOverride)) (acc : List ContainerOverride) :
    containerOverrideLoop name
        (cos.map (Option.map fun co => { co with Name := rename co })) acc =
      containerOverrideLoop name cos acc := by
  induction cos generalizing acc with
  | nil => rfl
  | cons c rest ih =>
    rcases c with _ | c
    · simp [containerOverrideLoop]
    · simp only [List.map_cons, Option.map_some', containerOverrideLoop, deref_some,
        Flow.bind_next]
      cases commandLoop c.Command [] <;> simp
      cases environmentLoop c.Environment [] <;> simp [ih]

/-- A valid cluster ECS target of a named rule is appended by the loop body. -/
theorem targetBody_of_valid (ctx : Context)
    (decode : String → Except String ecs.TaskOverride)
    (r : cloudwatchevents.Rule) (t : cloudwatchevents.Target)
    (hname : r.Name.isSome = true) (h : ValidClusterTarget ctx decode t) :
    ∃ tg, targetBody ctx decode r t = .next tg := by
  obtain ⟨harn, hid, hrole, ⟨p, hp, htc, htda⟩, input, ov, hinput, hdec, hov⟩ := h
  obtain ⟨name, hname⟩ := Option.isSome_iff_exists.mp hname
  obtain ⟨id, hid⟩ := Option.isSome_iff_exists.mp hid
  obtain ⟨role, hrole⟩ := Option.isSome_iff_exists.mp hrole
  obtain ⟨tc, htc⟩ := Option.isSome_iff_exists.mp htc
  obtain ⟨tda, htda⟩ := Option.isSome_iff_exists.mp htda
  obtain ⟨cos, hcos⟩ := containerOverrideLoop_complete name ov.ContainerOverrides [] hov
  exact ⟨_, (targetBody_eq_next_iff ctx decode r t _).mpr
    ⟨id, name, p, role, tc, tda, input, ov, cos, harn, hid, hname, hp, hrole, htc, htda,
      hinput, hdec, hcos, rfl⟩⟩

/-! ## Where the loop bodies leave the rule -/

theorem Flow.bind_eq_skipRule_iff {α β : Type} (x : Flow α) (f : α → Flow β) :
    (x >>= f) = Flow.skipRule ↔ x = Flow.skipRule ∨ ∃ a, x = Flow.next a ∧ f a = Flow.skipRule := by
  cases x <;> simp

theorem deref_ne_skipRule {α : Type} (p : Option α) : deref p ≠ Flow.skipRule := by
  cases p <;> simp

theorem orReturn_ne_skipRule {α : Type} (x : Except String α) : orReturn x ≠ Flow.skipRule := by
  cases x <;> simp

theorem commandLoop_ne_skipRule (cs : List (Option String)) (acc : List String) :
    commandLoop cs acc ≠ .skipRule := by
  induction cs generalizing acc with
  | nil => simp [commandLoop]
  | cons c rest ih =>
    simp only [commandLoop, ne_eq, Flow.bind_eq_skipRule_iff, deref_ne_skipRule, false_or,
      not_exists, not_and]
    exact fun s _ => ih _

theorem environmentLoop_ne_skipRule (kvs : List (Option ecs.KeyValuePair))
    (acc : List (String × String)) : environmentLoop kvs acc ≠ .skipRule := by
  induction kvs generalizing acc with
  | nil => simp [environmentLoop]
  | cons kv rest ih =>
    simp only [environmentLoop, ne_eq, Flow.bind_eq_skipRule_iff, deref_ne_skipRule, false_or,
      not_exists, not_and]
    exact fun _ _ _ _ _ _ => ih _

theorem containerOverrideLoop_ne_skipRule (name : String)
    (cos : List (Option ecs.ContainerOverride)) (acc : List ContainerOverride) :
    containerOverrideLoop name cos acc ≠ .skipRule := by
  induction cos generalizing acc with
  | nil => simp [containerOverrideLoop]
  | cons co rest ih =>
    simp only [containerOverrideLoop, ne_eq, Flow.bind_eq_skipRule_iff, deref_ne_skipRule,
      commandLoop_ne_skipRule, environmentLoop_ne_skipRule, false_or, not_exists, not_and]
    exact fun _ _ _ _ _ _ => ih _

/-- The loop body of a target leaves the rule only at line 106 or line 115. -/
theorem targetBody_eq_skipRule_iff (ctx : Context)
    (decode : String → Except String ecs.TaskOverride)
    (r : cloudwatchevents.Rule) (t : cloudwatchevents.Target) :
    targetBody ctx decode r t = .skipRule ↔
      (∃ arn, t.Arn = some arn ∧ arn ≠ clusterArn ctx) ∨
      (t.Arn = some (clusterArn ctx) ∧ t.Id.isSome = true ∧ r.Name.isSome = true ∧
        t.EcsParameters = none) := by
  simp only [targetBody, Flow.bind_eq_skipRule_iff, deref_ne_skipRule, orReturn_ne_skipRule,
    containerOverrideLoop_ne_skipRule, false_or, deref_eq_next_iff, Flow.pure_eq]
  constructor
  · rintro ⟨arn, harn, h⟩
    rcases h with h | ⟨u, hu, id, hid, name, hname, h⟩
    · left
      refine ⟨arn, harn, ?_⟩
      cases hc : (arn != clusterArn ctx) with
      | true => simpa using hc
      | false => rw [hc] at h; simp at h
    · right
      have hc : arn = clusterArn ctx := by
        cases hc : (arn != clusterArn ctx) with
        | true => rw [hc] at hu; simp at hu
        | false => simpa using hc
      subst hc
      refine ⟨harn, by simp [hid], by simp [hname], ?_⟩
      rcases h with h | ⟨u2, hu2, h⟩
      · cases hp : t.EcsParameters with
        | none => rfl
        | some p => rw [hp] at h; simp at h
      · exfalso
        obtain ⟨p, -, role, -, tc, -, tda, -, inp, -, ov, -, cos, -, h⟩ := h
        cases h
  · rintro (⟨arn, harn, hne⟩ | ⟨harn, hid, hname, hp⟩)
    · have hb : (arn != clusterArn ctx) = true := by simpa using hne
      exact ⟨arn, harn, Or.inl (by rw [hb]; rfl)⟩
    · obtain ⟨id, hid⟩ := Option.isSome_iff_exists.mp hid
      obtain ⟨name, hname⟩ := Option.isSome_iff_exists.mp hname
      exact ⟨_, harn, Or.inr ⟨(), by simp, id, hid, name, hname, Or.inl (by simp [hp])⟩⟩

/-- A rule that qualifies is not skipped: its loop body appends a rule, returns
an error or panics. -/
theorem ruleBody_ne_skipRule_of_qualifies (ctx : Context)
    (listTargets : Option String → Except String (List cloudwatchevents.Target))
    (decode : String → Except String ecs.TaskOverride)
    (r : cloudwatchevents.Rule) (h : Qualifies ctx listTargets r) :
    ruleBody ctx listTargets decode r ≠ .skipRule := by
  obtain ⟨⟨arn, harn, hpre⟩, t, hlt, htarn, hecs⟩ := h
  have ht : targetBody ctx decode r t ≠ .skipRule := by
    rw [ne_eq, targetBody_eq_skipRule_iff]
    rintro (⟨a, ha, hne⟩ | ⟨-, -, -, hnone⟩)
    · exact hne (Option.some.inj (ha.symm.trans htarn))
    · simp [hnone] at hecs
  simp only [ruleBody, harn, hpre, hlt, targetLoop, deref_some, Flow.bind_next, Bool.not_true,
    continueRuleListIf_false, orReturn_ok, List.nil_append]
  cases htb : targetBody ctx decode r t with
  | skipRule => exact absurd htb ht
  | fail e => simp
  | panic => simp
  | next tg =>
    simp only [Flow.bind_next]
    rcases r with ⟨ra, _ | rn, _ | rd, _ | rse, _ | rst⟩ <;> simp

/-- The default target of the sample state is a valid cluster ECS target. -/
theorem exampleDefaultTarget_valid :
    ValidClusterTarget exampleContext exampleDecode exampleDefaultTarget :=
  ⟨by decide, rfl, rfl, ⟨_, rfl, rfl, rfl⟩, "\x7b\x7d", ecs.TaskOverride.mk [], rfl,
    by simp [exampleDecode], by decide⟩

/-! ## Role elision -/

/-- C1 as stated fails. The role identifier `ecsEventsRole` does not start with
the role-namespace prefix, so stripping leaves it unchanged and it equals the
active context role; the claim then wants an empty `Role`, but line 119 compares
the unstripped identifier with `roleArn`, and the rule is emitted with
`Role = "ecsEventsRole"`. -/
theorem role_elision_counterexample :
    trimPrefix "ecsEventsRole" (roleArnPrefix exampleContext) = exampleContext.role ∧
    dumpRules exampleContext (exampleLister [exampleTarget "job" "ecsEventsRole" 1 "\x7b\x7d"])
        exampleDecode [exampleRule "ENABLED"] =
      .ok [{ Name := "job", Description := "a job", ScheduleExpression := "rate(1 hour)",
             Disabled := false,
             Target := some { TargetID := "", Role := "ecsEventsRole", TaskCount := 0,
                              TaskDefinition := "app:3", ContainerOverrides := [] } }] := by
  decide

/-- C1, amended. For every target appended by the loop body, with `role` its
role identifier: if `role` is the role-namespace prefix followed by the active
context role the emitted `Role` is empty, otherwise it is `role` with the
prefix stripped; and whenever `role` starts with the prefix this is the rule of
the claim (empty if the stripped name is the context role, the stripped name
otherwise). -/
theorem role_elision (ctx : Context) (decode : String → Except String ecs.TaskOverride)
    (r : cloudwatchevents.Rule) (t : cloudwatchevents.Target) (tg : Target) (role : String)
    (h : targetBody ctx decode r t = .next tg) (hrole : t.RoleArn = some role) :
    (role = roleArnPrefix ctx ++ ctx.role → tg.Role = "") ∧
    (role ≠ roleArnPrefix ctx ++ ctx.role → tg.Role = trimPrefix role (roleArnPrefix ctx)) ∧
    (hasPrefix role (roleArnPrefix ctx) = true →
      tg.Role = if trimPrefix role (roleArnPrefix ctx) = ctx.role then ""
                else trimPrefix role (roleArnPrefix ctx)) := by
  obtain ⟨id, name, p, role', tc, tda, inp, ov, cos, -, -, -, -, hrole', -, -, -, -, -, rfl⟩ :=
    (targetBody_eq_next_iff ctx decode r t tg).mp h
  obtain rfl : role' = role := Option.some.inj (hrole'.symm.trans hrole)
  refine ⟨fun heq => by simp [roleArn, heq], fun hne => by simp [roleArn, hne], fun hpre => ?_⟩
  obtain ⟨suffix, rfl⟩ := (hasPrefix_iff _ _).mp hpre
  simp only [trimPrefix_append, roleArn]
  by_cases hs : suffix = ctx.role
  · simp [hs]
  · have hne : roleArnPrefix ctx ++ suffix ≠ roleArnPrefix ctx ++ ctx.role :=
      fun heq => hs (string_append_left_cancel _ _ _ heq)
    simp [hs, hne]

/-- C1, amended, at a target whose role is another role of the account. -/
theorem role_elision_witness :
    (targetBody exampleContext exampleDecode (exampleRule "ENABLED")
        (exampleTarget "job" "arn:aws:iam::123456789012:role/batchRole" 1 "\x7b\x7d") =
      .next { TargetID := "", Role := "batchRole", TaskCount := 0, TaskDefinition := "app:3",
              ContainerOverrides := [] }) ∧
    (exampleTarget "job" "arn:aws:iam::123456789012:role/batchRole" 1 "\x7b\x7d").RoleArn =
      some "arn:aws:iam::123456789012:role/batchRole" ∧
    (("arn:aws:iam::123456789012:role/batchRole" =
        roleArnPrefix exampleContext ++ exampleContext.role →
      (Target.mk "" "batchRole" 0 "app:3" []).Role = "") ∧
     ("arn:aws:iam::123456789012:role/batchRole" ≠
        roleArnPrefix exampleContext ++ exampleContext.role →
      (Target.mk "" "batchRole" 0 "app:3" []).Role =
        trimPrefix "arn:aws:iam::123456789012:role/batchRole" (roleArnPrefix exampleContext)) ∧
     (hasPrefix "arn:aws:iam::123456789012:role/batchRole" (roleArnPrefix exampleContext) = true →
      (Target.mk "" "batchRole" 0 "app:3" []).Role =
        if trimPrefix "arn:aws:iam::123456789012:role/batchRole"
            (roleArnPrefix exampleContext) = exampleContext.role then ""
        else trimPrefix "arn:aws:iam::123456789012:role/batchRole"
            (roleArnPrefix exampleContext))) :=
  ⟨by decide, rfl,
    role_elision exampleContext exampleDecode (exampleRule "ENABLED")
      (exampleTarget "job" "arn:aws:iam::123456789012:role/batchRole" 1 "\x7b\x7d") _ _
      (by decide) rfl⟩

/-! ## Namespace filter -/

/-- C5. A rule whose identifier is not the rule-namespace prefix followed by
some suffix leaves the loop body at line 95, for every target lister and every
decoder (so neither is consulted for it), and the pass on a listing that
contains it is the pass on the listing without it. -/
theorem namespace_filter (ctx : Context) (r : cloudwatchevents.Rule) (arn : String)
    (harn : r.Arn = some arn) (hout : ¬ ∃ suffix, arn = ruleArnPrefix ctx ++ suffix)
    (listTargets : Option String → Except String (List cloudwatchevents.Target))
    (decode : String → Except String ecs.TaskOverride) :
    ruleBody ctx listTargets decode r = .skipRule ∧
    ruleEntry ctx listTargets decode r = none ∧
    ∀ pre post, dumpRules ctx listTargets decode (pre ++ r :: post) =
      dumpRules ctx listTargets decode (pre ++ post) := by
  have hpre : hasPrefix arn (ruleArnPrefix ctx) = false := by
    rw [← Bool.not_eq_true, hasPrefix_iff]
    exact hout
  have hbody : ruleBody ctx listTargets decode r = .skipRule := by
    simp [ruleBody, harn, hpre]
  exact ⟨hbody, by simp [ruleEntry, hbody],
    fun pre post => ruleLoop_skipRule ctx listTargets decode pre post r [] hbody⟩

/-- C5 at a rule of another region, with a target lister that fails. -/
theorem namespace_filter_witness :
    (cloudwatchevents.Rule.mk (some "arn:aws:events:eu-west-1:123456789012:rule/job")
        (some "job") none none none).Arn =
      some "arn:aws:events:eu-west-1:123456789012:rule/job" ∧
    (¬ ∃ suffix, "arn:aws:events:eu-west-1:123456789012:rule/job" =
        ruleArnPrefix exampleContext ++ suffix) ∧
    (ruleBody exampleContext (fun _ => .error "AccessDenied") exampleDecode
        (cloudwatchevents.Rule.mk (some "arn:aws:events:eu-west-1:123456789012:rule/job")
          (some "job") none none none) = .skipRule ∧
     ruleEntry exampleContext (fun _ => .error "AccessDenied") exampleDecode
        (cloudwatchevents.Rule.mk (some "arn:aws:events:eu-west-1:123456789012:rule/job")
          (some "job") none none none) = none ∧
     ∀ pre post, dumpRules exampleContext (fun _ => .error "AccessDenied") exampleDecode
        (pre ++ cloudwatchevents.Rule.mk (some "arn:aws:events:eu-west-1:123456789012:rule/job")
          (some "job") none none none :: post) =
       dumpRules exampleContext (fun _ => .error "AccessDenied") exampleDecode (pre ++ post)) :=
  have hout : ¬ ∃ suffix, "arn:aws:events:eu-west-1:123456789012:rule/job" =
      ruleArnPrefix exampleContext ++ suffix := by
    rw [← hasPrefix_iff]
    decide
  ⟨rfl, hout, namespace_filter exampleContext _ _ rfl hout _ _⟩

/-! ## TargetID elision -/

/-- C6. For every target appended by the loop body: the emitted `TargetID` is
empty if the remote identifier equals the rule's name, and is the remote
identifier otherwise. -/
theorem targetID_elision (ctx : Context) (decode : String → Except String ecs.TaskOverride)
    (r : cloudwatchevents.Rule) (t : cloudwatchevents.Target) (tg : Target) (id name : String)
    (h : targetBody ctx decode r t = .next tg) (hid : t.Id = some id)
    (hname : r.Name = some name) :
    (id = name → tg.TargetID = "") ∧ (id ≠ name → tg.TargetID = id) := by
  obtain ⟨id', name', p, role, tc, tda, inp, ov, cos, -, hid', hname', -, -, -, -, -, -, -, rfl⟩ :=
    (targetBody_eq_next_iff ctx decode r t tg).mp h
  obtain rfl : id' = id := Option.some.inj (hid'.symm.trans hid)
  obtain rfl : name' = name := Option.some.inj (hname'.symm.trans hname)
  exact ⟨fun heq => by simp [heq], fun hne => by simp [hne]⟩

/-- C6 at a target whose identifier differs from the rule name. -/
theorem targetID_elision_witness :
    (targetBody exampleContext exampleDecode (exampleRule "ENABLED")
        (exampleTarget "job-target" "arn:aws:iam::123456789012:role/ecsEventsRole" 1 "\x7b\x7d") =
      .next { TargetID := "job-target", Role := "", TaskCount := 0, TaskDefinition := "app:3",
              ContainerOverrides := [] }) ∧
    (exampleTarget "job-target" "arn:aws:iam::123456789012:role/ecsEventsRole" 1 "\x7b\x7d").Id =
      some "job-target" ∧
    (exampleRule "ENABLED").Name = some "job" ∧
    (("job-target" = "job" → (Target.mk "job-target" "" 0 "app:3" []).TargetID = "") ∧
     ("job-target" ≠ "job" → (Target.mk "job-target" "" 0 "app:3" []).TargetID = "job-target")) :=
  ⟨by decide, rfl, rfl,
    targetID_elision exampleContext exampleDecode (exampleRule "ENABLED")
      (exampleTarget "job-target" "arn:aws:iam::123456789012:role/ecsEventsRole" 1 "\x7b\x7d")
      _ _ _ (by decide) rfl rfl⟩

/-! ## TaskCount elision -/

/-- C7 as stated fails. The remote task count 0 is not 1, yet the emitted
`TaskCount` is 0, the unset value: the emitted target is the very one emitted
for the remote task count 1, so the count is not distinguishable from an
omitted one. -/
theorem taskCount_zero_counterexample :
    targetBody exampleContext exampleDecode (exampleRule "ENABLED")
        (exampleTarget "job" "arn:aws:iam::123456789012:role/ecsEventsRole" 0 "\x7b\x7d") =
      .next { TargetID := "", Role := "", TaskCount := 0, TaskDefinition := "app:3",
              ContainerOverrides := [] } ∧
    targetBody exampleContext exampleDecode (exampleRule "ENABLED")
        (exampleTarget "job" "arn:aws:iam::123456789012:role/ecsEventsRole" 1 "\x7b\x7d") =
      targetBody exampleContext exampleDecode (exampleRule "ENABLED")
        (exampleTarget "job" "arn:aws:iam::123456789012:role/ecsEventsRole" 0 "\x7b\x7d") := by
  decide

/-- C7, amended. For every target appended by the loop body, with `count` the
remote task count: the emitted `TaskCount` is 0 (unset) if `count` is 1 and is
`count` verbatim otherwise; it differs from the unset value exactly when
`count` is neither 1 nor 0. -/
theorem taskCount_elision (ctx : Context) (decode : String → Except String ecs.TaskOverride)
    (r : cloudwatchevents.Rule) (t : cloudwatchevents.Target) (tg : Target)
    (p : cloudwatchevents.EcsParameters) (count : Int)
    (h : targetBody ctx decode r t = .next tg) (hp : t.EcsParameters = some p)
    (hcount : p.TaskCount = some count) :
    (count = 1 → tg.TaskCount = 0) ∧ (count ≠ 1 → tg.TaskCount = count) ∧
    (tg.TaskCount ≠ 0 ↔ count ≠ 1 ∧ count ≠ 0) := by
  obtain ⟨id, name, p', role, tc, tda, inp, ov, cos, -, -, -, hp', -, htc, -, -, -, -, rfl⟩ :=
    (targetBody_eq_next_iff ctx decode r t tg).mp h
  obtain rfl : p' = p := Option.some.inj (hp'.symm.trans hp)
  obtain rfl : tc = count := Option.some.inj (htc.symm.trans hcount)
  refine ⟨fun heq => by simp [heq], fun hne => by simp [hne], ?_⟩
  by_cases h1 : tc = 1
  · simp [h1]
  · simp [h1]

/-- C7, amended, at a target with task count 3. -/
theorem taskCount_elision_witness :
    (targetBody exampleContext exampleDecode (exampleRule "ENABLED")
        (exampleTarget "job" "arn:aws:iam::123456789012:role/ecsEventsRole" 3 "\x7b\x7d") =
      .next { TargetID := "", Role := "", TaskCount := 3, TaskDefinition := "app:3",
              ContainerOverrides := [] }) ∧
    (exampleTarget "job" "arn:aws:iam::123456789012:role/ecsEventsRole" 3 "\x7b\x7d").EcsParameters =
      some (cloudwatchevents.EcsParameters.mk (some 3)
        (some "arn:aws:ecs:us-east-1:123456789012:task-definition/app:3")) ∧
    (cloudwatchevents.EcsParameters.mk (some 3)
        (some "arn:aws:ecs:us-east-1:123456789012:task-definition/app:3")).TaskCount = some 3 ∧
    (((3 : Int) = 1 → (Target.mk "" "" 3 "app:3" []).TaskCount = 0) ∧
     ((3 : Int) ≠ 1 → (Target.mk "" "" 3 "app:3" []).TaskCount = 3) ∧
     ((Target.mk "" "" 3 "app:3" []).TaskCount ≠ 0 ↔ (3 : Int) ≠ 1 ∧ (3 : Int) ≠ 0)) :=
  ⟨by decide, rfl, rfl,
    taskCount_elision exampleContext exampleDecode (exampleRule "ENABLED")
      (exampleTarget "job" "arn:aws:iam::123456789012:role/ecsEventsRole" 3 "\x7b\x7d")
      _ _ _ (by decide) rfl rfl⟩

/-! ## Disabled flag -/

/-- C8. For every rule appended by the loop body, with `state` the remote state
string: `Disabled` is true if and only if `state` is exactly `"DISABLED"`. -/
theorem disabled_flag (ctx : Context)
    (listTargets : Option String → Except String (List cloudwatchevents.Target))
    (decode : String → Except String ecs.TaskOverride)
    (r : cloudwatchevents.Rule) (ru : Rule) (state : String)
    (h : ruleBody ctx listTargets decode r = .next ru) (hstate : r.State = some state) :
    (ru.Disabled = true ↔ state = "DISABLED") ∧
    (state ≠ "DISABLED" → ru.Disabled = false) := by
  obtain ⟨arn, t, tg, name, d, se, st, -, -, -, -, -, -, -, hst, rfl⟩ :=
    (ruleBody_eq_next_iff ctx listTargets decode r ru).mp h
  obtain rfl : st = state := Option.some.inj (hst.symm.trans hstate)
  exact ⟨by simp, fun hne => by simp [hne]⟩

/-- C8 at a rule whose state is the lower-case spelling `disabled`. -/
theorem disabled_flag_witness :
    (ruleBody exampleContext
        (exampleLister [exampleTarget "job" "arn:aws:iam::123456789012:role/ecsEventsRole" 1 "\x7b\x7d"])
        exampleDecode (exampleRule "disabled") =
      .next { Name := "job", Description := "a job", ScheduleExpression := "rate(1 hour)",
              Disabled := false,
              Target := some { TargetID := "", Role := "", TaskCount := 0,
                               TaskDefinition := "app:3", ContainerOverrides := [] } }) ∧
    (exampleRule "disabled").State = some "disabled" ∧
    (((Rule.mk "job" "a job" "rate(1 hour)" false
        (some (Target.mk "" "" 0 "app:3" []))).Disabled = true ↔ "disabled" = "DISABLED") ∧
     ("disabled" ≠ "DISABLED" →
       (Rule.mk "job" "a job" "rate(1 hour)" false
        (some (Target.mk "" "" 0 "app:3" []))).Disabled = false)) :=
  ⟨by decide, rfl,
    disabled_flag exampleContext
      (exampleLister [exampleTarget "job" "arn:aws:iam::123456789012:role/ecsEventsRole" 1 "\x7b\x7d"])
      exampleDecode (exampleRule "disabled") _ _ (by decide) rfl⟩

/-! ## Container-override naming -/

/-- C9. For every target appended by the loop body and every `ContainerOverride`
in it, the override's `Name` is the owning rule's name; there is one emitted
override per override of the payload; and the emitted overrides are unchanged
when the names the payload carries are replaced by any others. -/
theorem container_override_name (ctx : Context)
    (decode : String → Except String ecs.TaskOverride)
    (r : cloudwatchevents.Rule) (t : cloudwatchevents.Target) (tg : Target)
    (name input : String) (ov : ecs.TaskOverride)
    (h : targetBody ctx decode r t = .next tg) (hname : r.Name = some name)
    (hinput : t.Input = some input) (hdec : decode input = .ok ov) :
    (∀ co ∈ tg.ContainerOverrides, co.Name = name) ∧
    tg.ContainerOverrides.length = ov.ContainerOverrides.length ∧
    ∀ rename : ecs.ContainerOverride → Option String,
      containerOverrideLoop name
        (ov.ContainerOverrides.map (Option.map fun co => { co with Name := rename co })) [] =
      .next tg.ContainerOverrides := by
  obtain ⟨id, name', p, role, tc, tda, inp, ov', cos, -, -, hname', -, -, -, -, hinp, hov, hcos,
    rfl⟩ := (targetBody_eq_next_iff ctx decode r t tg).mp h
  obtain rfl : name' = name := Option.some.inj (hname'.symm.trans hname)
  obtain rfl : inp = input := Option.some.inj (hinp.symm.trans hinput)
  obtain rfl : ov' = ov := Except.ok.inj (hov.symm.trans hdec)
  refine ⟨fun co hco => ?_, ?_, fun rename => ?_⟩
  · rcases containerOverrideLoop_name name' ov'.ContainerOverrides [] cos hcos co hco with hnil | hn
    · simp at hnil
    · exact hn
  · simpa using containerOverrideLoop_length name' ov'.ContainerOverrides [] cos hcos
  · rw [containerOverrideLoop_rename, hcos]

/-- C9 at a payload that names its container `app`. -/
theorem container_override_name_witness :
    (targetBody exampleContext exampleDecode (exampleRule "ENABLED")
        (exampleTarget "job" "arn:aws:iam::123456789012:role/ecsEventsRole" 1
          "\x7b\"containerOverrides\":[\x7b\"name\":\"app\",\"command\":[\"run\"]\x7d]\x7d") =
      .next { TargetID := "", Role := "", TaskCount := 0, TaskDefinition := "app:3",
              ContainerOverrides := [{ Name := "job", Command := ["run"], Environment := some [] }] }) ∧
    (exampleRule "ENABLED").Name = some "job" ∧
    ((∀ co ∈ [ContainerOverride.mk "job" ["run"] (some [])], co.Name = "job") ∧
     [ContainerOverride.mk "job" ["run"] (some [])].length =
       [some (ecs.ContainerOverride.mk (some "app") [some "run"] [])].length ∧
     ∀ rename : ecs.ContainerOverride → Option String,
       containerOverrideLoop "job"
         ([some (ecs.ContainerOverride.mk (some "app") [some "run"] [])].map
           (Option.map fun co => { co with Name := rename co })) [] =
       .next [ContainerOverride.mk "job" ["run"] (some [])]) :=
  ⟨by decide, rfl,
    container_override_name exampleContext exampleDecode (exampleRule "ENABLED")
      (exampleTarget "job" "arn:aws:iam::123456789012:role/ecsEventsRole" 1
        "\x7b\"containerOverrides\":[\x7b\"name\":\"app\",\"command\":[\"run\"]\x7d]\x7d")
      (Target.mk "" "" 0 "app:3" [ContainerOverride.mk "job" ["run"] (some [])]) "job"
      "\x7b\"containerOverrides\":[\x7b\"name\":\"app\",\"command\":[\"run\"]\x7d]\x7d"
      (ecs.TaskOverride.mk [some (ecs.ContainerOverride.mk (some "app") [some "run"] [])])
      (by decide) rfl rfl (by simp [exampleDecode])⟩

/-! ## Emission criterion -/

/-- C2. On every listing on which the pass does not fail, the output is the
listing with each rule replaced by its entry, if it has one; a listed rule has
an entry, and that entry carries a present `Target`, if and only if the rule is
in the namespace, has exactly one attached target, that target's resource
identifier is the active cluster's and it has ECS parameters; every other
listed rule has no entry, and no entry has a nil `Target`. -/
theorem emission_criterion (ctx : Context)
    (listTargets : Option String → Except String (List cloudwatchevents.Target))
    (decode : String → Except String ecs.TaskOverride)
    (ruleList : List cloudwatchevents.Rule) (rules : List Rule)
    (h : dumpRules ctx listTargets decode ruleList = .ok rules) :
    rules = ruleList.filterMap (ruleEntry ctx listTargets decode) ∧
    ∀ r ∈ ruleList,
      ((∃ ru, ruleEntry ctx listTargets decode r = some ru ∧ ru.Target.isSome = true) ↔
        Qualifies ctx listTargets r) ∧
      (¬ Qualifies ctx listTargets r → ruleEntry ctx listTargets decode r = none) ∧
      (∀ ru, ruleEntry ctx listTargets decode r = some ru → ru.Target ≠ none) := by
  obtain ⟨hout, hall⟩ := ruleLoop_eq_ok ctx listTargets decode ruleList [] rules h
  refine ⟨by simpa using hout, fun r hr => ?_⟩
  have hentry : ∀ ru, ruleEntry ctx listTargets decode r = some ru →
      ru.Target.isSome = true ∧ Qualifies ctx listTargets r := by
    intro ru hru
    have hbody : ruleBody ctx listTargets decode r = .next ru := by
      unfold ruleEntry at hru
      cases hb : ruleBody ctx listTargets decode r <;> rw [hb] at hru <;> simp at hru
      rw [hru]
    obtain ⟨arn, t, tg, name, d, se, st, harn, hpre, hlt, htg, -, -, -, -, rfl⟩ :=
      (ruleBody_eq_next_iff ctx listTargets decode r ru).mp hbody
    obtain ⟨id, name', p, role, tc, tda, inp, ov, cos, htarn, -, -, hp, -⟩ :=
      (targetBody_eq_next_iff ctx decode r t tg).mp htg
    exact ⟨rfl, ⟨arn, harn, hpre⟩, t, hlt, htarn, by simp [hp]⟩
  have hq : Qualifies ctx listTargets r →
      ∃ ru, ruleEntry ctx listTargets decode r = some ru ∧ ru.Target.isSome = true := by
    intro hq
    rcases hall r hr with hskip | ⟨ru, hnext⟩
    · exact absurd hskip (ruleBody_ne_skipRule_of_qualifies ctx listTargets decode r hq)
    · have hru : ruleEntry ctx listTargets decode r = some ru := by simp [ruleEntry, hnext]
      exact ⟨ru, hru, (hentry ru hru).1⟩
  refine ⟨⟨fun ⟨ru, hru, _⟩ => (hentry ru hru).2, hq⟩, fun hnq => ?_, fun ru hru hnone => ?_⟩
  · cases he : ruleEntry ctx listTargets decode r with
    | none => rfl
    | some ru => exact absurd (hentry ru he).2 hnq
  · have := (hentry ru hru).1
    simp [hnone] at this

/-- C2 at a listing of an out-of-namespace rule followed by a qualifying one. -/
theorem emission_criterion_witness :
    dumpRules exampleContext (exampleLister [exampleDefaultTarget]) exampleDecode
        [exampleForeignRule, exampleRule "ENABLED"] = .ok [exampleEmittedRule] ∧
    ([exampleEmittedRule] =
        [exampleForeignRule, exampleRule "ENABLED"].filterMap
          (ruleEntry exampleContext (exampleLister [exampleDefaultTarget]) exampleDecode) ∧
     ∀ r ∈ [exampleForeignRule, exampleRule "ENABLED"],
       ((∃ ru, ruleEntry exampleContext (exampleLister [exampleDefaultTarget]) exampleDecode r =
            some ru ∧ ru.Target.isSome = true) ↔
          Qualifies exampleContext (exampleLister [exampleDefaultTarget]) r) ∧
       (¬ Qualifies exampleContext (exampleLister [exampleDefaultTarget]) r →
          ruleEntry exampleContext (exampleLister [exampleDefaultTarget]) exampleDecode r = none) ∧
       (∀ ru, ruleEntry exampleContext (exampleLister [exampleDefaultTarget]) exampleDecode r =
            some ru → ru.Target ≠ none)) :=
  ⟨by decide,
    emission_criterion exampleContext (exampleLister [exampleDefaultTarget]) exampleDecode
      [exampleForeignRule, exampleRule "ENABLED"] [exampleEmittedRule] (by decide)⟩

/-! ## Multi-target rules -/

/-- C3. An in-namespace rule with two or more attached targets, all of them
valid cluster ECS targets, and with its own fields present, leaves the loop
body at line 165: it has no entry, and the pass on a listing that contains it
is the pass on the listing without it (same outcome, same entries). -/
theorem multi_target_rule_dropped (ctx : Context)
    (listTargets : Option String → Except String (List cloudwatchevents.Target))
    (decode : String → Except String ecs.TaskOverride)
    (r : cloudwatchevents.Rule) (ts : List cloudwatchevents.Target)
    (hns : InNamespace ctx r) (hlt : listTargets r.Name = .ok ts) (hlen : 2 ≤ ts.length)
    (hvalid : ∀ t ∈ ts, ValidClusterTarget ctx decode t)
    (hname : r.Name.isSome = true) (hdesc : r.Description.isSome = true)
    (hsched : r.ScheduleExpression.isSome = true) (hstate : r.State.isSome = true) :
    ruleBody ctx listTargets decode r = .skipRule ∧
    ruleEntry ctx listTargets decode r = none ∧
    ∀ pre post, dumpRules ctx listTargets decode (pre ++ r :: post) =
      dumpRules ctx listTargets decode (pre ++ post) := by
  obtain ⟨arn, harn, hpre⟩ := hns
  have hloop : ∀ (ts : List cloudwatchevents.Target) (acc : List Target),
      (∀ t ∈ ts, ValidClusterTarget ctx decode t) →
      ∃ tgs, targetLoop ctx decode r ts acc = .next (acc ++ tgs) ∧ tgs.length = ts.length := by
    intro ts
    induction ts with
    | nil => intro acc _; exact ⟨[], by simp [targetLoop], rfl⟩
    | cons t rest ih =>
      intro acc hv
      obtain ⟨tg, htg⟩ := targetBody_of_valid ctx decode r t hname (hv t (by simp))
      obtain ⟨tgs, htgs, hl⟩ := ih (acc ++ [tg]) (fun t ht => hv t (by simp [ht]))
      exact ⟨tg :: tgs, by simp [targetLoop, htg, htgs], by simp [hl]⟩
  obtain ⟨tgs, htgs, hl⟩ := hloop ts [] hvalid
  obtain ⟨name, hname⟩ := Option.isSome_iff_exists.mp hname
  obtain ⟨d, hdesc⟩ := Option.isSome_iff_exists.mp hdesc
  obtain ⟨se, hsched⟩ := Option.isSome_iff_exists.mp hsched
  obtain ⟨st, hstate⟩ := Option.isSome_iff_exists.mp hstate
  rw [hname] at hlt
  have hbody : ruleBody ctx listTargets decode r = .skipRule := by
    simp only [ruleBody, harn, hpre, hlt, htgs, hname, hdesc, hsched, hstate, deref_some,
      Flow.bind_next, Bool.not_true, continueRuleListIf_false, orReturn_ok, List.nil_append]
    match tgs, hl with
    | [], hl => rfl
    | [_], hl => simp at hl; omega
    | _ :: _ :: _, _ => rfl
  exact ⟨hbody, by simp [ruleEntry, hbody],
    fun pre post => ruleLoop_skipRule ctx listTargets decode pre post r [] hbody⟩

/-- C3 at a rule with two default cluster targets, listed between two copies of
a single-target rule. -/
theorem multi_target_rule_dropped_witness :
    InNamespace exampleContext (exampleRule "ENABLED") ∧
    exampleLister [exampleDefaultTarget, exampleDefaultTarget] (exampleRule "ENABLED").Name =
      .ok [exampleDefaultTarget, exampleDefaultTarget] ∧
    2 ≤ [exampleDefaultTarget, exampleDefaultTarget].length ∧
    (∀ t ∈ [exampleDefaultTarget, exampleDefaultTarget],
      ValidClusterTarget exampleContext exampleDecode t) ∧
    (ruleBody exampleContext (exampleLister [exampleDefaultTarget, exampleDefaultTarget])
        exampleDecode (exampleRule "ENABLED") = .skipRule ∧
     ruleEntry exampleContext (exampleLister [exampleDefaultTarget, exampleDefaultTarget])
        exampleDecode (exampleRule "ENABLED") = none ∧
     ∀ pre post,
       dumpRules exampleContext (exampleLister [exampleDefaultTarget, exampleDefaultTarget])
           exampleDecode (pre ++ exampleRule "ENABLED" :: post) =
         dumpRules exampleContext (exampleLister [exampleDefaultTarget, exampleDefaultTarget])
           exampleDecode (pre ++ post)) :=
  have hns : InNamespace exampleContext (exampleRule "ENABLED") := ⟨_, rfl, by decide⟩
  have hvalid : ∀ t ∈ [exampleDefaultTarget, exampleDefaultTarget],
      ValidClusterTarget exampleContext exampleDecode t := by
    intro t ht
    simp only [List.mem_cons, List.mem_singleton, List.not_mem_nil, or_false, or_self] at ht
    subst ht
    exact exampleDefaultTarget_valid
  ⟨hns, rfl, by decide, hvalid,
    multi_target_rule_dropped exampleContext
      (exampleLister [exampleDefaultTarget, exampleDefaultTarget]) exampleDecode
      (exampleRule "ENABLED") [exampleDefaultTarget, exampleDefaultTarget] hns rfl (by decide)
      hvalid rfl rfl rfl rfl⟩

/-! ## Rules with a non-cluster target -/

/-- C4. An in-namespace, named rule that has, at any position of its target
list, a target whose resource identifier is not the active cluster's, the
targets before it being valid cluster ECS targets (those after it are never
looked at), leaves the loop body at line 106: it has no entry, and the pass on
a listing that contains it is the pass on the listing without it. -/
theorem non_cluster_target_rejects_rule (ctx : Context)
    (listTargets : Option String → Except String (List cloudwatchevents.Target))
    (decode : String → Except String ecs.TaskOverride)
    (r : cloudwatchevents.Rule) (before after : List cloudwatchevents.Target)
    (other : cloudwatchevents.Target) (arn : String)
    (hns : InNamespace ctx r) (hname : r.Name.isSome = true)
    (hlt : listTargets r.Name = .ok (before ++ other :: after))
    (harn : other.Arn = some arn) (hne : arn ≠ clusterArn ctx)
    (hvalid : ∀ t ∈ before, ValidClusterTarget ctx decode t) :
    ruleBody ctx listTargets decode r = .skipRule ∧
    ruleEntry ctx listTargets decode r = none ∧
    ∀ pre post, dumpRules ctx listTargets decode (pre ++ r :: post) =
      dumpRules ctx listTargets decode (pre ++ post) := by
  obtain ⟨rarn, hrarn, hpre⟩ := hns
  have hother : targetBody ctx decode r other = .skipRule :=
    (targetBody_eq_skipRule_iff ctx decode r other).mpr (Or.inl ⟨arn, harn, hne⟩)
  have hloop := targetLoop_skipRule ctx decode r before after other []
    (fun t ht => targetBody_of_valid ctx decode r t hname (hvalid t ht)) hother
  have hbody : ruleBody ctx listTargets decode r = .skipRule := by
    simp only [ruleBody, hrarn, hpre, hlt, hloop, deref_some, Flow.bind_next, Bool.not_true,
      continueRuleListIf_false, orReturn_ok, Flow.bind_skipRule]
  exact ⟨hbody, by simp [ruleEntry, hbody],
    fun pre post => ruleLoop_skipRule ctx listTargets decode pre post r [] hbody⟩

/-- C4 at a rule whose second target points at another cluster and carries an
undecodable payload. -/
theorem non_cluster_target_rejects_rule_witness :
    InNamespace exampleContext (exampleRule "ENABLED") ∧
    exampleLister [exampleDefaultTarget, exampleOtherClusterTarget] (exampleRule "ENABLED").Name =
      .ok ([exampleDefaultTarget] ++ exampleOtherClusterTarget :: []) ∧
    exampleOtherClusterTarget.Arn = some "arn:aws:ecs:us-east-1:123456789012:cluster/other" ∧
    "arn:aws:ecs:us-east-1:123456789012:cluster/other" ≠ clusterArn exampleContext ∧
    (∀ t ∈ [exampleDefaultTarget], ValidClusterTarget exampleContext exampleDecode t) ∧
    (ruleBody exampleContext (exampleLister [exampleDefaultTarget, exampleOtherClusterTarget])
        exampleDecode (exampleRule "ENABLED") = .skipRule ∧
     ruleEntry exampleContext (exampleLister [exampleDefaultTarget, exampleOtherClusterTarget])
        exampleDecode (exampleRule "ENABLED") = none ∧
     ∀ pre post,
       dumpRules exampleContext (exampleLister [exampleDefaultTarget, exampleOtherClusterTarget])
           exampleDecode (pre ++ exampleRule "ENABLED" :: post) =
         dumpRules exampleContext (exampleLister [exampleDefaultTarget, exampleOtherClusterTarget])
           exampleDecode (pre ++ post)) :=
  have hns : InNamespace exampleContext (exampleRule "ENABLED") := ⟨_, rfl, by decide⟩
  have hvalid : ∀ t ∈ [exampleDefaultTarget],
      ValidClusterTarget exampleContext exampleDecode t := by
    intro t ht
    simp only [List.mem_singleton] at ht
    subst ht
    exact exampleDefaultTarget_valid
  ⟨hns, rfl, rfl, by decide, hvalid,
    non_cluster_target_rejects_rule exampleContext
      (exampleLister [exampleDefaultTarget, exampleOtherClusterTarget]) exampleDecode
      (exampleRule "ENABLED") [exampleDefaultTarget] [] exampleOtherClusterTarget
      "arn:aws:ecs:us-east-1:123456789012:cluster/other" hns rfl rfl rfl (by decide) hvalid⟩

/-! ## The round-trip scenario -/

/-- C10. For every context, rule-identifier suffix, description and payload:
the listing with the single in-namespace rule `nightly-job` (schedule
`rate(1 day)`, state `ENABLED`) whose one target has id `nightly-job`, the
cluster identifier, the role prefix followed by the context role, the
task-definition prefix followed by `app:3`, task count 1 and a payload decoding
to one container override with command `run --once` and environment
`ENV=prod`, yields exactly one rule, with `TargetID`, `Role` and `TaskCount`
unset, `TaskDefinition` `app:3` and one override named `nightly-job`. -/
theorem round_trip_scenario (ctx : Context)
    (listTargets : Option String → Except String (List cloudwatchevents.Target))
    (decode : String → Except String ecs.TaskOverride)
    (suffix description payload : String) (payloadName : Option String)
    (hlt : listTargets (some "nightly-job") = .ok
      [{ Arn := some (clusterArn ctx), Id := some "nightly-job",
         RoleArn := some (roleArnPrefix ctx ++ ctx.role),
         EcsParameters := some { TaskCount := some 1,
                                 TaskDefinitionArn := some (taskDefArnPrefix ctx ++ "app:3") },
         Input := some payload }])
    (hdec : decode payload = .ok
      { ContainerOverrides :=
          [some { Name := payloadName, Command := [some "run", some "--once"],
                  Environment := [some { Name := some "ENV", Value := some "prod" }] }] }) :
    dumpRules ctx listTargets decode
        [{ Arn := some (ruleArnPrefix ctx ++ suffix), Name := some "nightly-job",
           Description := some description, ScheduleExpression := some "rate(1 day)",
           State := some "ENABLED" }] =
      .ok [{ Name := "nightly-job", Description := description,
             ScheduleExpression := "rate(1 day)", Disabled := false,
             Target := some
               { TargetID := "", Role := "", TaskCount := 0, TaskDefinition := "app:3",
                 ContainerOverrides :=
                   [{ Name := "nightly-job", Command := ["run", "--once"],
                      Environment := some [("ENV", "prod")] }] } }] := by
  have hbody := (ruleBody_eq_next_iff ctx listTargets decode
      { Arn := some (ruleArnPrefix ctx ++ suffix), Name := some "nightly-job",
        Description := some description, ScheduleExpression := some "rate(1 day)",
        State := some "ENABLED" } _).mpr
    ⟨_, _, _, "nightly-job", description, "rate(1 day)", "ENABLED", rfl,
      hasPrefix_append _ _, hlt,
      (targetBody_eq_next_iff ctx decode _ _ _).mpr
        ⟨"nightly-job", "nightly-job", _, _, 1, _, payload, _, _, rfl, rfl, rfl, rfl, rfl, rfl,
          rfl, rfl, hdec, rfl, rfl⟩,
      rfl, rfl, rfl, rfl, rfl⟩
  simp only [dumpRules, ruleLoop, hbody, List.nil_append]
  simp [roleArn, trimPrefix_append, mapSet]

/-- C10 in the sample context, with a payload that names its container `app`. -/
theorem round_trip_scenario_witness :
    exampleLister
        [{ Arn := some (clusterArn exampleContext), Id := some "nightly-job",
           RoleArn := some (roleArnPrefix exampleContext ++ exampleContext.role),
           EcsParameters := some
             { TaskCount := some 1,
               TaskDefinitionArn := some (taskDefArnPrefix exampleContext ++ "app:3") },
           Input := some "payload" }] (some "nightly-job") =
      .ok
        [{ Arn := some (clusterArn exampleContext), Id := some "nightly-job",
           RoleArn := some (roleArnPrefix exampleContext ++ exampleContext.role),
           EcsParameters := some
             { TaskCount := some 1,
               TaskDefinitionArn := some (taskDefArnPrefix exampleContext ++ "app:3") },
           Input := some "payload" }] ∧
    (fun _ => Except.ok
        { ContainerOverrides :=
            [some { Name := some "app", Command := [some "run", some "--once"],
                    Environment := [some { Name := some "ENV", Value := some "prod" }] }] } :
      String → Except String ecs.TaskOverride) "payload" =
      .ok
        { ContainerOverrides :=
            [some { Name := some "app", Command := [some "run", some "--once"],
                    Environment := [some { Name := some "ENV", Value := some "prod" }] }] } ∧
    dumpRules exampleContext
        (exampleLister
          [{ Arn := some (clusterArn exampleContext), Id := some "nightly-job",
             RoleArn := some (roleArnPrefix exampleContext ++ exampleContext.role),
             EcsParameters := some
               { TaskCount := some 1,
                 TaskDefinitionArn := some (taskDefArnPrefix exampleContext ++ "app:3") },
             Input := some "payload" }])
        (fun _ => Except.ok
          { ContainerOverrides :=
              [some { Name := some "app", Command := [some "run", some "--once"],
                      Environment := [some { Name := some "ENV", Value := some "prod" }] }] })
        [{ Arn := some (ruleArnPrefix exampleContext ++ "nightly-job"),
           Name := some "nightly-job", Description := some "nightly batch",
           ScheduleExpression := some "rate(1 day)", State := some "ENABLED" }] =
      .ok [{ Name := "nightly-job", Description := "nightly batch",
             ScheduleExpression := "rate(1 day)", Disabled := false,
             Target := some
               { TargetID := "", Role := "", TaskCount := 0, TaskDefinition := "app:3",
                 ContainerOverrides :=
                   [{ Name := "nightly-job", Command := ["run", "--once"],
                      Environment := some [("ENV", "prod")] }] } }] :=
  ⟨rfl, rfl,
    round_trip_scenario exampleContext _ _ "nightly-job" "nightly batch" "payload" (some "app")
      rfl rfl⟩

/-! ## More string lemmas -/

theorem eq_append_trimPrefix (s pre : String) (h : hasPrefix s pre = true) :
    s = pre ++ trimPrefix s pre := by
  obtain ⟨suffix, rfl⟩ := (hasPrefix_iff _ _).mp h
  rw [trimPrefix_append]

theorem trimPrefix_of_not_hasPrefix (s pre : String) (h : hasPrefix s pre = false) :
    trimPrefix s pre = s := by
  simp [trimPrefix, h]

/-! ## Inverting the default elision -/

/-- C11. For every target appended by the loop body whose remote identifier is
non-empty, whose remote task count is at least 1, whose role identifier is the
role-namespace prefix followed by a non-empty role name and whose
task-definition identifier is the task-definition prefix followed by a suffix,
re-applying the defaults to the emitted `Target` gives back the remote values:
the identifier, the role identifier, the task count and the task-definition
identifier. -/
theorem default_elision_invertible (ctx : Context)
    (decode : String → Except String ecs.TaskOverride)
    (r : cloudwatchevents.Rule) (t : cloudwatchevents.Target) (tg : Target)
    (p : cloudwatchevents.EcsParameters) (id name roleName suffix : String) (count : Int)
    (h : targetBody ctx decode r t = .next tg)
    (hname : r.Name = some name) (hid : t.Id = some id) (hid_ne : id ≠ "")
    (hp : t.EcsParameters = some p) (hcount : p.TaskCount = some count) (hge : 1 ≤ count)
    (hrole : t.RoleArn = some (roleArnPrefix ctx ++ roleName)) (hrole_ne : roleName ≠ "")
    (htd : p.TaskDefinitionArn = some (taskDefArnPrefix ctx ++ suffix)) :
    (if tg.TargetID = "" then name else tg.TargetID) = id ∧
    roleArnPrefix ctx ++ (if tg.Role = "" then ctx.role else tg.Role) =
      roleArnPrefix ctx ++ roleName ∧
    (if tg.TaskCount = 0 then 1 else tg.TaskCount) = count ∧
    taskDefArnPrefix ctx ++ tg.TaskDefinition = taskDefArnPrefix ctx ++ suffix := by
  obtain ⟨id', name', p', role', tc, tda, inp, ov, cos, -, hid', hname', hp', hrole', htc, htda,
    -, -, -, rfl⟩ := (targetBody_eq_next_iff ctx decode r t tg).mp h
  obtain rfl : id' = id := Option.some.inj (hid'.symm.trans hid)
  obtain rfl : name' = name := Option.some.inj (hname'.symm.trans hname)
  obtain rfl : p' = p := Option.some.inj (hp'.symm.trans hp)
  obtain rfl : role' = _ := Option.some.inj (hrole'.symm.trans hrole)
  obtain rfl : tc = count := Option.some.inj (htc.symm.trans hcount)
  obtain rfl : tda = _ := Option.some.inj (htda.symm.trans htd)
  refine ⟨?_, ?_, ?_, ?_⟩
  · by_cases hc : id' = name'
    · simp [hc]
    · simp [hc, hid_ne]
  · by_cases hc : roleName = ctx.role
    · simp [hc, roleArn]
    · have hne : roleArnPrefix ctx ++ roleName ≠ roleArn ctx :=
        fun heq => hc (string_append_left_cancel _ _ _ heq)
      simp [hne, trimPrefix_append, hrole_ne]
  · by_cases hc : tc = 1
    · simp [hc]
    · have h0 : tc ≠ 0 := by omega
      simp [hc, h0]
  · simp [trimPrefix_append]

/-- C11 at a target with its own identifier, another role of the account and
task count 3. -/
theorem default_elision_invertible_witness :
    targetBody exampleContext exampleDecode (exampleRule "ENABLED")
        (exampleTarget "job-target" "arn:aws:iam::123456789012:role/batchRole" 3 "\x7b\x7d") =
      .next (Target.mk "job-target" "batchRole" 3 "app:3" []) ∧
    "job-target" ≠ "" ∧ (1 : Int) ≤ 3 ∧ "batchRole" ≠ "" ∧
    ((if (Target.mk "job-target" "batchRole" 3 "app:3" []).TargetID = "" then "job"
        else (Target.mk "job-target" "batchRole" 3 "app:3" []).TargetID) = "job-target" ∧
     roleArnPrefix exampleContext ++
        (if (Target.mk "job-target" "batchRole" 3 "app:3" []).Role = "" then exampleContext.role
          else (Target.mk "job-target" "batchRole" 3 "app:3" []).Role) =
       roleArnPrefix exampleContext ++ "batchRole" ∧
     (if (Target.mk "job-target" "batchRole" 3 "app:3" []).TaskCount = 0 then 1
        else (Target.mk "job-target" "batchRole" 3 "app:3" []).TaskCount) = 3 ∧
     taskDefArnPrefix exampleContext ++
        (Target.mk "job-target" "batchRole" 3 "app:3" []).TaskDefinition =
       taskDefArnPrefix exampleContext ++ "app:3") :=
  ⟨by decide, by decide, by decide, by decide,
    default_elision_invertible exampleContext exampleDecode (exampleRule "ENABLED")
      (exampleTarget "job-target" "arn:aws:iam::123456789012:role/batchRole" 3 "\x7b\x7d")
      (Target.mk "job-target" "batchRole" 3 "app:3" [])
      (cloudwatchevents.EcsParameters.mk (some 3)
        (some "arn:aws:ecs:us-east-1:123456789012:task-definition/app:3"))
      "job-target" "job" "batchRole" "app:3" 3
      (by decide) rfl rfl (by decide) rfl rfl (by decide) (by decide) (by decide) (by decide)⟩

/-! ## Task-definition stripping -/

/-- C16 as stated fails. The task definition of another account does not start
with the task-definition prefix of the context; the rule is emitted all the
same, with the whole identifier as `TaskDefinition`, so the prefix followed by
the emitted `TaskDefinition` is not the remote identifier. -/
theorem taskDefinition_foreign_counterexample :
    hasPrefix "arn:aws:ecs:us-east-1:999999999999:task-definition/app:3"
      (taskDefArnPrefix exampleContext) = false ∧
    dumpRules exampleContext
        (exampleLister
          [{ exampleDefaultTarget with
             EcsParameters := some
               { TaskCount := some 1,
                 TaskDefinitionArn :=
                   some "arn:aws:ecs:us-east-1:999999999999:task-definition/app:3" } }])
        exampleDecode [exampleRule "ENABLED"] =
      .ok [{ Name := "job", Description := "a job", ScheduleExpression := "rate(1 hour)",
             Disabled := false,
             Target := some
               { TargetID := "", Role := "", TaskCount := 0,
                 TaskDefinition := "arn:aws:ecs:us-east-1:999999999999:task-definition/app:3",
                 ContainerOverrides := [] } }] ∧
    taskDefArnPrefix exampleContext ++
        "arn:aws:ecs:us-east-1:999999999999:task-definition/app:3" ≠
      "arn:aws:ecs:us-east-1:999999999999:task-definition/app:3" := by
  decide

/-- C16, amended. For every target appended by the loop body, with `tda` its
remote task-definition identifier: if `tda` starts with the task-definition
prefix then `tda` is the prefix followed by the emitted `TaskDefinition`; if it
does not, the target is emitted all the same and its `TaskDefinition` is `tda`
unchanged. -/
theorem taskDefinition_stripping (ctx : Context)
    (decode : String → Except String ecs.TaskOverride)
    (r : cloudwatchevents.Rule) (t : cloudwatchevents.Target) (tg : Target)
    (p : cloudwatchevents.EcsParameters) (tda : String)
    (h : targetBody ctx decode r t = .next tg) (hp : t.EcsParameters = some p)
    (htd : p.TaskDefinitionArn = some tda) :
    (hasPrefix tda (taskDefArnPrefix ctx) = true →
      tda = taskDefArnPrefix ctx ++ tg.TaskDefinition) ∧
    (hasPrefix tda (taskDefArnPrefix ctx) = false → tg.TaskDefinition = tda) := by
  obtain ⟨id, name, p', role, tc, tda', inp, ov, cos, -, -, -, hp', -, -, htda, -, -, -, rfl⟩ :=
    (targetBody_eq_next_iff ctx decode r t tg).mp h
  obtain rfl : p' = p := Option.some.inj (hp'.symm.trans hp)
  obtain rfl : tda' = tda := Option.some.inj (htda.symm.trans htd)
  exact ⟨fun hpre => eq_append_trimPrefix _ _ hpre,
    fun hnot => trimPrefix_of_not_hasPrefix _ _ hnot⟩

/-- C16, amended, at the default target of the sample state. -/
theorem taskDefinition_stripping_witness :
    targetBody exampleContext exampleDecode (exampleRule "ENABLED") exampleDefaultTarget =
      .next (Target.mk "" "" 0 "app:3" []) ∧
    ((hasPrefix "arn:aws:ecs:us-east-1:123456789012:task-definition/app:3"
        (taskDefArnPrefix exampleContext) = true →
      "arn:aws:ecs:us-east-1:123456789012:task-definition/app:3" =
        taskDefArnPrefix exampleContext ++ (Target.mk "" "" 0 "app:3" []).TaskDefinition) ∧
     (hasPrefix "arn:aws:ecs:us-east-1:123456789012:task-definition/app:3"
        (taskDefArnPrefix exampleContext) = false →
      (Target.mk "" "" 0 "app:3" []).TaskDefinition =
        "arn:aws:ecs:us-east-1:123456789012:task-definition/app:3")) :=
  ⟨by decide,
    taskDefinition_stripping exampleContext exampleDecode (exampleRule "ENABLED")
      exampleDefaultTarget (Target.mk "" "" 0 "app:3" [])
      (cloudwatchevents.EcsParameters.mk (some 1)
        (some "arn:aws:ecs:us-east-1:123456789012:task-definition/app:3"))
      "arn:aws:ecs:us-east-1:123456789012:task-definition/app:3" (by decide) rfl rfl⟩

/-! ## Listing order -/

theorem filterMap_sublist_forall₂ {α β : Type} (f : α → Option β) (P : α → β → Prop)
    (hP : ∀ a b, f a = some b → P a b) (l : List α) :
    ∃ kept, List.Sublist kept l ∧ List.Forall₂ P kept (l.filterMap f) := by
  induction l with
  | nil => exact ⟨[], List.Sublist.slnil, by simp⟩
  | cons a rest ih =>
    obtain ⟨kept, hsub, hall⟩ := ih
    cases hfa : f a with
    | none =>
      exact ⟨kept, hsub.cons a, by simpa [List.filterMap_cons, hfa] using hall⟩
    | some b =>
      exact ⟨a :: kept, hsub.cons₂ a, by
        simpa [List.filterMap_cons, hfa] using ⟨hP a b hfa, hall⟩⟩

/-- C14. On every pass that returns the rules there is a sublist of the remote
listing (same relative order, nothing repeated or moved) that matches the
emitted rules one for one, each emitted rule carrying the remote rule's name,
description and schedule expression verbatim; in particular the emitted names
are a subsequence of the listed names. -/
theorem listing_order_preserved (ctx : Context)
    (listTargets : Option String → Except String (List cloudwatchevents.Target))
    (decode : String → Except String ecs.TaskOverride)
    (ruleList : List cloudwatchevents.Rule) (rules : List Rule)
    (h : dumpRules ctx listTargets decode ruleList = .ok rules) :
    (∃ kept, List.Sublist kept ruleList ∧
      List.Forall₂ (fun (r : cloudwatchevents.Rule) (ru : Rule) =>
        r.Name = some ru.Name ∧ r.Description = some ru.Description ∧
        r.ScheduleExpression = some ru.ScheduleExpression) kept rules) ∧
    List.Sublist (rules.map fun ru => some ru.Name) (ruleList.map fun r => r.Name) := by
  obtain ⟨hout, -⟩ := ruleLoop_eq_ok ctx listTargets decode ruleList [] rules h
  simp only [List.nil_append] at hout
  have hkept := filterMap_sublist_forall₂ (ruleEntry ctx listTargets decode)
    (fun (r : cloudwatchevents.Rule) (ru : Rule) =>
      r.Name = some ru.Name ∧ r.Description = some ru.Description ∧
      r.ScheduleExpression = some ru.ScheduleExpression)
    (fun r ru hru => by
      have hbody : ruleBody ctx listTargets decode r = .next ru := by
        unfold ruleEntry at hru
        cases hb : ruleBody ctx listTargets decode r <;> rw [hb] at hru <;> simp at hru
        rw [hru]
      obtain ⟨arn, t, tg, name, d, se, st, -, -, -, -, hname, hd, hse, -, rfl⟩ :=
        (ruleBody_eq_next_iff ctx listTargets decode r ru).mp hbody
      exact ⟨hname, hd, hse⟩) ruleList
  rw [← hout] at hkept
  obtain ⟨kept, hsub, hall⟩ := hkept
  refine ⟨⟨kept, hsub, hall⟩, ?_⟩
  have hmap : (rules.map fun ru => some ru.Name) = kept.map fun r => r.Name := by
    clear hsub hout h
    induction hall with
    | nil => rfl
    | cons hab _ ih => simp [hab.1, ih]
  rw [hmap]
  exact hsub.map _

/-- C14 at a listing of an out-of-namespace rule followed by a qualifying one. -/
theorem listing_order_preserved_witness :
    dumpRules exampleContext (exampleLister [exampleDefaultTarget]) exampleDecode
        [exampleForeignRule, exampleRule "ENABLED"] = .ok [exampleEmittedRule] ∧
    ((∃ kept, List.Sublist kept [exampleForeignRule, exampleRule "ENABLED"] ∧
       List.Forall₂ (fun (r : cloudwatchevents.Rule) (ru : Rule) =>
         r.Name = some ru.Name ∧ r.Description = some ru.Description ∧
         r.ScheduleExpression = some ru.ScheduleExpression) kept [exampleEmittedRule]) ∧
     List.Sublist ([exampleEmittedRule].map fun ru => some ru.Name)
       ([exampleForeignRule, exampleRule "ENABLED"].map fun r => r.Name)) :=
  ⟨by decide,
    listing_order_preserved exampleContext (exampleLister [exampleDefaultTarget]) exampleDecode
      [exampleForeignRule, exampleRule "ENABLED"] [exampleEmittedRule] (by decide)⟩

/-! ## The map operations -/

theorem mapGet_mapSet (m : List (String × String)) (k v j : String) :
    mapGet (mapSet m k v) j = if k = j then some v else mapGet m j := by
  induction m with
  | nil => simp [mapSet, mapGet]
  | cons e rest ih =>
    obtain ⟨k', v'⟩ := e
    by_cases hk : k' = k
    · subst hk
      by_cases hj : k' = j
      · simp [mapSet, mapGet, hj]
      · simp [mapSet, mapGet, hj]
    · by_cases hj : k' = j
      · subst hj
        have hne : ¬ k = k' := fun h => hk h.symm
        simp [mapSet, mapGet, hk, hne]
      · simp [mapSet, mapGet, hk, hj, ih]

theorem mapGet_isSome_iff (m : List (String × String)) (k : String) :
    (mapGet m k).isSome = true ↔ k ∈ m.map Prod.fst := by
  induction m with
  | nil => simp [mapGet]
  | cons e rest ih =>
    obtain ⟨k', v'⟩ := e
    by_cases hk : k' = k
    · simp [mapGet, hk]
    · have hne : ¬ k = k' := fun h => hk h.symm
      simp [mapGet, hk, hne, ih]

theorem mem_keys_mapSet (m : List (String × String)) (k v j : String) :
    j ∈ (mapSet m k v).map Prod.fst ↔ j = k ∨ j ∈ m.map Prod.fst := by
  rw [← mapGet_isSome_iff, ← mapGet_isSome_iff, mapGet_mapSet]
  by_cases hk : k = j
  · simp [hk]
  · have hne : ¬ j = k := fun h => hk h.symm
    simp [hk, hne]

theorem mapSet_keys_nodup (m : List (String × String)) (k v : String)
    (h : (m.map Prod.fst).Nodup) : ((mapSet m k v).map Prod.fst).Nodup := by
  induction m with
  | nil => simp [mapSet]
  | cons e rest ih =>
    obtain ⟨k', v'⟩ := e
    simp only [List.map_cons, List.nodup_cons] at h
    by_cases hk : k' = k
    · subst hk
      simpa [mapSet] using h
    · simp only [mapSet, hk, if_false, List.map_cons, List.nodup_cons]
      refine ⟨?_, ih h.2⟩
      rw [mem_keys_mapSet]
      rintro (heq | hmem)
      · exact hk heq
      · exact h.1 hmem

/-! ## The override loops, inverted -/

theorem commandLoop_eq_next (cs : List (Option String)) (acc out : List String)
    (h : commandLoop cs acc = .next out) : ∃ xs, cs = xs.map some ∧ out = acc ++ xs := by
  induction cs generalizing acc with
  | nil =>
    simp only [commandLoop, Flow.next.injEq] at h
    exact ⟨[], rfl, by simp [h]⟩
  | cons c rest ih =>
    simp only [commandLoop, Flow.bind_eq_next_iff, deref_eq_next_iff] at h
    obtain ⟨s, rfl, hrest⟩ := h
    obtain ⟨xs, rfl, rfl⟩ := ih _ hrest
    exact ⟨s :: xs, rfl, by simp⟩

theorem environmentLoop_eq_next (kvs : List (Option ecs.KeyValuePair))
    (acc env : List (String × String)) (h : environmentLoop kvs acc = .next env) :
    ∃ pairs : List (String × String), kvs = pairs.map keyValue ∧
      env = pairs.foldl (fun m kv => mapSet m kv.1 kv.2) acc := by
  induction kvs generalizing acc with
  | nil =>
    simp only [environmentLoop, Flow.next.injEq] at h
    exact ⟨[], rfl, by simp [h]⟩
  | cons kv rest ih =>
    simp only [environmentLoop, Flow.bind_eq_next_iff, deref_eq_next_iff] at h
    obtain ⟨kv', rfl, k, hk, v, hv, hrest⟩ := h
    obtain ⟨pairs, rfl, rfl⟩ := ih _ hrest
    refine ⟨(k, v) :: pairs, ?_, rfl⟩
    obtain ⟨n, val⟩ := kv'
    simp only at hk hv
    subst hk hv
    rfl

theorem mapGet_foldl_mapSet (pairs acc : List (String × String)) (k : String) :
    mapGet (pairs.foldl (fun m kv => mapSet m kv.1 kv.2) acc) k =
      match lastValue pairs k with
      | some v => some v
      | none => mapGet acc k := by
  induction pairs generalizing acc with
  | nil => simp [lastValue]
  | cons e rest ih =>
    obtain ⟨k', v'⟩ := e
    simp only [List.foldl_cons, ih, lastValue, mapGet_mapSet]
    cases lastValue rest k with
    | some v => rfl
    | none =>
      by_cases hk : k' = k
      · simp [hk]
      · simp [hk]

theorem foldl_mapSet_keys_nodup (pairs acc : List (String × String))
    (h : (acc.map Prod.fst).Nodup) :
    ((pairs.foldl (fun m kv => mapSet m kv.1 kv.2) acc).map Prod.fst).Nodup := by
  induction pairs generalizing acc with
  | nil => simpa using h
  | cons e rest ih => exact ih _ (mapSet_keys_nodup acc e.1 e.2 h)

theorem lastValue_isSome_iff (pairs : List (String × String)) (k : String) :
    (lastValue pairs k).isSome = true ↔ k ∈ pairs.map Prod.fst := by
  induction pairs with
  | nil => simp [lastValue]
  | cons e rest ih =>
    obtain ⟨k', v'⟩ := e
    simp only [lastValue, List.map_cons, List.mem_cons]
    cases hl : lastValue rest k with
    | some v =>
      have : k ∈ rest.map Prod.fst := ih.mp (by simp [hl])
      simp [this]
    | none =>
      have : ¬ k ∈ rest.map Prod.fst := fun hm => by simpa [hl] using ih.mpr hm
      by_cases hk : k' = k
      · simp [hk]
      · have hne : ¬ k = k' := fun h => hk h.symm
        simp [hk, hne, this]

theorem containerOverrideLoop_decodes (name : String)
    (cos : List (Option ecs.ContainerOverride)) (acc out : List ContainerOverride)
    (h : containerOverrideLoop name cos acc = .next out) :
    ∃ news, out = acc ++ news ∧ List.Forall₂ DecodesTo cos news := by
  induction cos generalizing acc with
  | nil =>
    simp only [containerOverrideLoop, Flow.next.injEq] at h
    exact ⟨[], by simp [h], List.Forall₂.nil⟩
  | cons c rest ih =>
    simp only [containerOverrideLoop, Flow.bind_eq_next_iff, deref_eq_next_iff] at h
    obtain ⟨co, rfl, cmd, hcmd, env, henv, hrest⟩ := h
    obtain ⟨news, rfl, hall⟩ := ih _ hrest
    obtain ⟨xs, hxs, rfl⟩ := commandLoop_eq_next _ _ _ hcmd
    obtain ⟨pairs, hpairs, rfl⟩ := environmentLoop_eq_next _ _ _ henv
    refine ⟨({ Name := name, Command := cmd,
               Environment := some (pairs.foldl (fun m kv => mapSet m kv.1 kv.2) []) } :
             ContainerOverride) :: news, by simp, List.Forall₂.cons ?_ hall⟩
    have hget : ∀ k, mapGet (pairs.foldl (fun m kv => mapSet m kv.1 kv.2) []) k =
        lastValue pairs k := by
      intro k
      rw [mapGet_foldl_mapSet]
      cases lastValue pairs k <;> simp [mapGet]
    refine ⟨co, pairs, _, rfl, hpairs, rfl, foldl_mapSet_keys_nodup pairs [] (by simp),
      fun k => ?_, hget, fun hnil => by simp [hnil], by simpa using hxs⟩
    rw [← mapGet_isSome_iff, hget, lastValue_isSome_iff]

/-! ## Environment decoding -/

/-- C19. For every target appended by the loop body, the emitted container
overrides match the overrides of the decoded payload one for one, and for each
of them: the emitted `Environment` is an allocated map whose key set is exactly
the set of names in the payload's environment list, each key mapped to the
value of the last entry carrying that name; no entry gives the empty, non-nil
map; and the emitted `Command` is the payload's command list in the same
order. -/
theorem environment_decoding (ctx : Context)
    (decode : String → Except String ecs.TaskOverride)
    (r : cloudwatchevents.Rule) (t : cloudwatchevents.Target) (tg : Target)
    (input : String) (ov : ecs.TaskOverride)
    (h : targetBody ctx decode r t = .next tg) (hinput : t.Input = some input)
    (hdec : decode input = .ok ov) :
    List.Forall₂ DecodesTo ov.ContainerOverrides tg.ContainerOverrides := by
  obtain ⟨id, name, p, role, tc, tda, inp, ov', cos, -, -, -, -, -, -, -, hinp, hov, hcos, rfl⟩ :=
    (targetBody_eq_next_iff ctx decode r t tg).mp h
  obtain rfl : inp = input := Option.some.inj (hinp.symm.trans hinput)
  obtain rfl : ov' = ov := Except.ok.inj (hov.symm.trans hdec)
  obtain ⟨news, hnews, hall⟩ := containerOverrideLoop_decodes name ov'.ContainerOverrides [] cos hcos
  simp only [List.nil_append] at hnews
  subst hnews
  exact hall

/-- C19 at a payload whose environment list names `ENV` twice: the later value
`prod` is the one emitted. -/
theorem environment_decoding_witness :
    targetBody exampleContext (fun _ => .ok exampleEnvOverride) (exampleRule "ENABLED")
        exampleDefaultTarget =
      .next (Target.mk "" "" 0 "app:3"
        [ContainerOverride.mk "job" ["run", "--once"]
          (some [("ENV", "prod"), ("MODE", "batch")])]) ∧
    List.Forall₂ DecodesTo exampleEnvOverride.ContainerOverrides
      [ContainerOverride.mk "job" ["run", "--once"]
        (some [("ENV", "prod"), ("MODE", "batch")])] :=
  ⟨by decide,
    environment_decoding exampleContext (fun _ => .ok exampleEnvOverride)
      (exampleRule "ENABLED") exampleDefaultTarget
      (Target.mk "" "" 0 "app:3"
        [ContainerOverride.mk "job" ["run", "--once"]
          (some [("ENV", "prod"), ("MODE", "batch")])])
      "\x7b\x7d" exampleEnvOverride (by decide) rfl rfl⟩

/-! ## Where the loop bodies return an error -/

theorem Flow.bind_eq_fail_iff {α β : Type} (x : Flow α) (f : α → Flow β) (e : String) :
    (x >>= f) = Flow.fail e ↔ x = Flow.fail e ∨ ∃ a, x = Flow.next a ∧ f a = Flow.fail e := by
  cases x <;> simp

theorem deref_ne_fail {α : Type} (p : Option α) (e : String) : deref p ≠ Flow.fail e := by
  cases p <;> simp

theorem continueRuleListIf_ne_fail (c : Bool) (e : String) :
    continueRuleListIf c ≠ Flow.fail e := by
  cases c <;> simp

theorem orReturn_eq_fail_iff {α : Type} (x : Except String α) (e : String) :
    orReturn x = Flow.fail e ↔ x = Except.error e := by
  cases x <;> simp

theorem commandLoop_ne_fail (cs : List (Option String)) (acc : List String) (e : String) :
    commandLoop cs acc ≠ .fail e := by
  induction cs generalizing acc with
  | nil => simp [commandLoop]
  | cons c rest ih =>
    simp only [commandLoop, ne_eq, Flow.bind_eq_fail_iff, deref_ne_fail, false_or,
      not_exists, not_and]
    exact fun s _ => ih _

theorem environmentLoop_ne_fail (kvs : List (Option ecs.KeyValuePair))
    (acc : List (String × String)) (e : String) : environmentLoop kvs acc ≠ .fail e := by
  induction kvs generalizing acc with
  | nil => simp [environmentLoop]
  | cons kv rest ih =>
    simp only [environmentLoop, ne_eq, Flow.bind_eq_fail_iff, deref_ne_fail, false_or,
      not_exists, not_and]
    exact fun _ _ _ _ _ _ => ih _

theorem containerOverrideLoop_ne_fail (name : String)
    (cos : List (Option ecs.ContainerOverride)) (acc : List ContainerOverride) (e : String) :
    containerOverrideLoop name cos acc ≠ .fail e := by
  induction cos generalizing acc with
  | nil => simp [containerOverrideLoop]
  | cons co rest ih =>
    simp only [containerOverrideLoop, ne_eq, Flow.bind_eq_fail_iff, deref_ne_fail,
      commandLoop_ne_fail, environmentLoop_ne_fail, false_or, not_exists, not_and]
    exact fun _ _ _ _ _ _ => ih _

/-- The loop body of a target returns an error only at line 131: the target
passed the checks and its payload does not decode. -/
theorem targetBody_eq_fail_iff (ctx : Context)
    (decode : String → Except String ecs.TaskOverride)
    (r : cloudwatchevents.Rule) (t : cloudwatchevents.Target) (e : String) :
    targetBody ctx decode r t = .fail e ↔
      PassesChecks ctx t ∧ r.Name.isSome = true ∧
      ∃ input, t.Input = some input ∧ decode input = .error e := by
  simp only [targetBody, Flow.bind_eq_fail_iff, deref_ne_fail, continueRuleListIf_ne_fail,
    containerOverrideLoop_ne_fail, orReturn_eq_fail_iff, false_or, deref_eq_next_iff,
    continueRuleListIf_eq_next_iff, Flow.pure_eq, PassesChecks]
  constructor
  · rintro ⟨arn, harn, u, hu, id, hid, name, hname, u2, hu2, p, hp, role, hrole, tc, htc, tda,
      htda, input, hinput, h⟩
    rcases h with h | ⟨ov, -, cos, -, h⟩
    · have hc : arn = clusterArn ctx := by simpa using hu
      subst hc
      exact ⟨⟨harn, by simp [hid], by simp [hrole], p, hp, by simp [htc], by simp [htda]⟩,
        by simp [hname], input, hinput, h⟩
    · cases h
  · rintro ⟨⟨harn, hid, hrole, p, hp, htc, htda⟩, hname, input, hinput, hdec⟩
    obtain ⟨id, hid⟩ := Option.isSome_iff_exists.mp hid
    obtain ⟨name, hname⟩ := Option.isSome_iff_exists.mp hname
    obtain ⟨role, hrole⟩ := Option.isSome_iff_exists.mp hrole
    obtain ⟨tc, htc⟩ := Option.isSome_iff_exists.mp htc
    obtain ⟨tda, htda⟩ := Option.isSome_iff_exists.mp htda
    exact ⟨_, harn, (), by simp, id, hid, name, hname, (), by simp [hp], p, hp, role, hrole, tc,
      htc, tda, htda, input, hinput, Or.inl hdec⟩

theorem targetLoop_fail (ctx : Context)
    (decode : String → Except String ecs.TaskOverride)
    (r : cloudwatchevents.Rule) (ts1 ts2 : List cloudwatchevents.Target)
    (t : cloudwatchevents.Target) (acc : List Target) (e : String)
    (h1 : ∀ x ∈ ts1, ∃ tg, targetBody ctx decode r x = .next tg)
    (ht : targetBody ctx decode r t = .fail e) :
    targetLoop ctx decode r (ts1 ++ t :: ts2) acc = .fail e := by
  induction ts1 generalizing acc with
  | nil => simp [targetLoop, ht]
  | cons x rest ih =>
    obtain ⟨tg, htg⟩ := h1 x (by simp)
    simp only [List.cons_append, targetLoop, htg, Flow.bind_next]
    exact ih _ (fun y hy => h1 y (by simp [hy]))

theorem targetLoop_eq_fail (ctx : Context)
    (decode : String → Except String ecs.TaskOverride)
    (r : cloudwatchevents.Rule) (ts : List cloudwatchevents.Target) (acc : List Target)
    (e : String) (h : targetLoop ctx decode r ts acc = .fail e) :
    ∃ before t after, ts = before ++ t :: after ∧
      (∀ x ∈ before, ∃ tg, targetBody ctx decode r x = .next tg) ∧
      targetBody ctx decode r t = .fail e := by
  induction ts generalizing acc with
  | nil => simp [targetLoop] at h
  | cons x rest ih =>
    simp only [targetLoop, Flow.bind_eq_fail_iff] at h
    rcases h with h | ⟨tg, htg, h⟩
    · exact ⟨[], x, rest, rfl, by simp, h⟩
    · obtain ⟨before, t, after, rfl, hb, ht⟩ := ih _ h
      refine ⟨x :: before, t, after, rfl, ?_, ht⟩
      intro y hy
      rcases List.mem_cons.mp hy with rfl | hy
      · exact ⟨tg, htg⟩
      · exact hb y hy

/-- The loop body of a rule returns an error only at line 101 (the target
lister failed) or at line 131 (a target that passed the checks, preceded by
appended targets only, has a payload that does not decode). -/
theorem ruleBody_eq_fail (ctx : Context)
    (listTargets : Option String → Except String (List cloudwatchevents.Target))
    (decode : String → Except String ecs.TaskOverride)
    (r : cloudwatchevents.Rule) (e : String)
    (h : ruleBody ctx listTargets decode r = .fail e) :
    listTargets r.Name = .error e ∨
    ∃ before t after input, listTargets r.Name = .ok (before ++ t :: after) ∧
      (∀ x ∈ before, ∃ tg, targetBody ctx decode r x = .next tg) ∧
      PassesChecks ctx t ∧ t.Input = some input ∧ decode input = .error e := by
  simp only [ruleBody, Flow.bind_eq_fail_iff, deref_ne_fail, continueRuleListIf_ne_fail,
    orReturn_eq_fail_iff, false_or, orReturn_eq_next_iff] at h
  obtain ⟨arn, -, u, -, h⟩ := h
  rcases h with h | ⟨ta, hta, h⟩
  · exact Or.inl h
  · right
    rcases h with h | ⟨targets, -, name, -, d, -, se, -, st, -, h⟩
    · obtain ⟨before, t, after, rfl, hb, ht⟩ := targetLoop_eq_fail ctx decode r ta [] e h
      obtain ⟨hchecks, -, input, hinput, hdec⟩ := (targetBody_eq_fail_iff ctx decode r t e).mp ht
      exact ⟨before, t, after, input, hta, hb, hchecks, hinput, hdec⟩
    · exfalso
      match targets, h with
      | [], h => cases h
      | [_], h => cases h
      | _ :: _ :: _, h => cases h

theorem ruleBody_fail (ctx : Context)
    (listTargets : Option String → Except String (List cloudwatchevents.Target))
    (decode : String → Except String ecs.TaskOverride)
    (r : cloudwatchevents.Rule) (before after : List cloudwatchevents.Target)
    (t : cloudwatchevents.Target) (input e : String)
    (hns : InNamespace ctx r) (hname : r.Name.isSome = true)
    (hlt : listTargets r.Name = .ok (before ++ t :: after))
    (hbefore : ∀ x ∈ before, ValidClusterTarget ctx decode x)
    (hchecks : PassesChecks ctx t) (hinput : t.Input = some input)
    (hdec : decode input = .error e) :
    ruleBody ctx listTargets decode r = .fail e := by
  obtain ⟨arn, harn, hpre⟩ := hns
  have ht : targetBody ctx decode r t = .fail e :=
    (targetBody_eq_fail_iff ctx decode r t e).mpr ⟨hchecks, hname, input, hinput, hdec⟩
  have hloop := targetLoop_fail ctx decode r before after t [] e
    (fun x hx => targetBody_of_valid ctx decode r x hname (hbefore x hx)) ht
  simp only [ruleBody, harn, hpre, hlt, hloop, deref_some, Flow.bind_next, Bool.not_true,
    continueRuleListIf_false, orReturn_ok, Flow.bind_fail]

theorem ruleLoop_fail (ctx : Context)
    (listTargets : Option String → Except String (List cloudwatchevents.Target))
    (decode : String → Except String ecs.TaskOverride)
    (pre post : List cloudwatchevents.Rule) (r : cloudwatchevents.Rule) (acc : List Rule)
    (e : String)
    (hpre : ∀ x ∈ pre, ruleBody ctx listTargets decode x = .skipRule ∨
      ∃ ru, ruleBody ctx listTargets decode x = .next ru)
    (h : ruleBody ctx listTargets decode r = .fail e) :
    ruleLoop ctx listTargets decode (pre ++ r :: post) acc = .error e := by
  induction pre generalizing acc with
  | nil => simp [ruleLoop, h]
  | cons x rest ih =>
    have hrest := fun acc => ih acc (fun y hy => hpre y (by simp [hy]))
    simp only [List.cons_append, ruleLoop]
    rcases hpre x (by simp) with hx | ⟨ru, hx⟩
    · rw [hx]; exact hrest _
    · rw [hx]; exact hrest _

/-! ## Decode failure -/

/-- C13. When the context is resolved and the listing succeeds, and the rules
listed before `r` are appended or skipped, and `r` is an in-namespace rule
whose target `t`, preceded by valid cluster ECS targets only, passes the
cluster-identifier and ECS-parameter checks and carries a payload that does not
decode: `run` returns that error and writes nothing to the output stream, and
no configuration is handed to the marshaller. -/
theorem decode_failure_aborts (w : Collaborators) (a : App) (flags : Flags) (c c' : Config)
    (ctx : Context) (pre post : List cloudwatchevents.Rule) (r : cloudwatchevents.Rule)
    (before after : List cloudwatchevents.Target) (t : cloudwatchevents.Target)
    (input e : String)
    (hload : loadStage w a flags = .ok c)
    (hres : resolveStage w.defaultRole a.AccountID flags c = .ok (ctx, c'))
    (hlist : (w.New ctx.region).ListRules = .ok (pre ++ r :: post))
    (hpre : ∀ x ∈ pre,
      ruleBody ctx (w.New ctx.region).ListTargetsByRule w.Unmarshal x = .skipRule ∨
      ∃ ru, ruleBody ctx (w.New ctx.region).ListTargetsByRule w.Unmarshal x = .next ru)
    (hns : InNamespace ctx r) (hname : r.Name.isSome = true)
    (hlt : (w.New ctx.region).ListTargetsByRule r.Name = .ok (before ++ t :: after))
    (hbefore : ∀ x ∈ before, ValidClusterTarget ctx w.Unmarshal x)
    (hchecks : PassesChecks ctx t) (hinput : t.Input = some input)
    (hdec : w.Unmarshal input = .error e) :
    run w a (.ok flags) = { returned := .error (.ruleList e), outStream := [] } ∧
    dumpConfig w a (.ok flags) = .error (.ruleList e) ∧
    dumpRules ctx (w.New ctx.region).ListTargetsByRule w.Unmarshal (pre ++ r :: post) =
      .error e := by
  have hbody := ruleBody_fail ctx (w.New ctx.region).ListTargetsByRule w.Unmarshal r before after
    t input e hns hname hlt hbefore hchecks hinput hdec
  have hdump : dumpRules ctx (w.New ctx.region).ListTargetsByRule w.Unmarshal
      (pre ++ r :: post) = .error e :=
    ruleLoop_fail ctx _ _ pre post r [] e hpre hbody
  have hconf : dumpConfig w a (.ok flags) = .error (.ruleList e) := by
    simp only [dumpConfig, hload, hres, hlist, hdump]
  exact ⟨by simp only [run, hconf], hconf, hdump⟩

theorem exampleUndecodableTarget_passesChecks :
    PassesChecks exampleContext exampleUndecodableTarget :=
  ⟨by decide, rfl, rfl, _, rfl, rfl, rfl⟩

/-- C13 at a listing of a skipped rule followed by a rule whose second target
has the payload `not json`. -/
theorem decode_failure_aborts_witness :
    loadStage (exampleCollaborators [exampleForeignRule, exampleRule "ENABLED"]
        [exampleDefaultTarget, exampleUndecodableTarget]) exampleApp exampleFlags =
      .ok emptyConfig ∧
    resolveStage "ecsEventsRole" "123456789012" exampleFlags emptyConfig =
      .ok (exampleContext, { Region := "us-east-1", Cluster := "batch", Role := "", Rules := [] }) ∧
    PassesChecks exampleContext exampleUndecodableTarget ∧
    exampleDecode "not json" = .error "unexpected end of JSON input" ∧
    (run (exampleCollaborators [exampleForeignRule, exampleRule "ENABLED"]
        [exampleDefaultTarget, exampleUndecodableTarget]) exampleApp (.ok exampleFlags) =
      { returned := .error (.ruleList "unexpected end of JSON input"), outStream := [] } ∧
     dumpConfig (exampleCollaborators [exampleForeignRule, exampleRule "ENABLED"]
        [exampleDefaultTarget, exampleUndecodableTarget]) exampleApp (.ok exampleFlags) =
      .error (.ruleList "unexpected end of JSON input") ∧
     dumpRules exampleContext (exampleLister [exampleDefaultTarget, exampleUndecodableTarget])
        exampleDecode ([exampleForeignRule] ++ exampleRule "ENABLED" :: []) =
      .error "unexpected end of JSON input") :=
  ⟨rfl, rfl, exampleUndecodableTarget_passesChecks, rfl,
    decode_failure_aborts
      (exampleCollaborators [exampleForeignRule, exampleRule "ENABLED"]
        [exampleDefaultTarget, exampleUndecodableTarget]) exampleApp exampleFlags emptyConfig
      { Region := "us-east-1", Cluster := "batch", Role := "", Rules := [] } exampleContext
      [exampleForeignRule] [] (exampleRule "ENABLED") [exampleDefaultTarget] []
      exampleUndecodableTarget "not json" "unexpected end of JSON input"
      rfl rfl rfl
      (by
        intro x hx
        simp only [List.mem_singleton] at hx
        subst hx
        exact Or.inl (by decide))
      ⟨_, rfl, by decide⟩ rfl rfl
      (by
        intro x hx
        simp only [List.mem_singleton] at hx
        subst hx
        exact exampleDefaultTarget_valid)
      exampleUndecodableTarget_passesChecks rfl rfl⟩


/-! ## Unsupported shapes -/

/-- A rule with two or more valid cluster ECS targets, and with its own fields
present, is left at line 165. -/
theorem ruleBody_skipRule_of_many (ctx : Context)
    (listTargets : Option String → Except String (List cloudwatchevents.Target))
    (decode : String → Except String ecs.TaskOverride)
    (r : cloudwatchevents.Rule) (ts : List cloudwatchevents.Target)
    (hns : InNamespace ctx r) (hlt : listTargets r.Name = .ok ts) (hlen : 2 ≤ ts.length)
    (hvalid : ∀ t ∈ ts, ValidClusterTarget ctx decode t)
    (hname : r.Name.isSome = true) (hdesc : r.Description.isSome = true)
    (hsched : r.ScheduleExpression.isSome = true) (hstate : r.State.isSome = true) :
    ruleBody ctx listTargets decode r = .skipRule := by
  obtain ⟨arn, harn, hpre⟩ := hns
  have hloop : ∀ (ts : List cloudwatchevents.Target) (acc : List Target),
      (∀ t ∈ ts, ValidClusterTarget ctx decode t) →
      ∃ tgs, targetLoop ctx decode r ts acc = .next (acc ++ tgs) ∧ tgs.length = ts.length := by
    intro ts
    induction ts with
    | nil => intro acc _; exact ⟨[], by simp [targetLoop], rfl⟩
    | cons t rest ih =>
      intro acc hv
      obtain ⟨tg, htg⟩ := targetBody_of_valid ctx decode r t hname (hv t (by simp))
      obtain ⟨tgs, htgs, hl⟩ := ih (acc ++ [tg]) (fun t ht => hv t (by simp [ht]))
      exact ⟨tg :: tgs, by simp [targetLoop, htg, htgs], by simp [hl]⟩
  obtain ⟨tgs, htgs, hl⟩ := hloop ts [] hvalid
  obtain ⟨name, hname⟩ := Option.isSome_iff_exists.mp hname
  obtain ⟨d, hdesc⟩ := Option.isSome_iff_exists.mp hdesc
  obtain ⟨se, hsched⟩ := Option.isSome_iff_exists.mp hsched
  obtain ⟨st, hstate⟩ := Option.isSome_iff_exists.mp hstate
  rw [hname] at hlt
  simp only [ruleBody, harn, hpre, hlt, htgs, hname, hdesc, hsched, hstate, deref_some,
    Flow.bind_next, Bool.not_true, continueRuleListIf_false, orReturn_ok, List.nil_append]
  match tgs, hl with
  | [], hl => rfl
  | [_], hl => simp at hl; omega
  | _ :: _ :: _, _ => rfl

/-- A rule with a disqualifying target preceded by valid cluster ECS targets
only is left at line 106 or line 115. -/
theorem ruleBody_skipRule_of_disqualified (ctx : Context)
    (listTargets : Option String → Except String (List cloudwatchevents.Target))
    (decode : String → Except String ecs.TaskOverride)
    (r : cloudwatchevents.Rule) (before after : List cloudwatchevents.Target)
    (bad : cloudwatchevents.Target)
    (hns : InNamespace ctx r) (hname : r.Name.isSome = true)
    (hlt : listTargets r.Name = .ok (before ++ bad :: after))
    (hvalid : ∀ t ∈ before, ValidClusterTarget ctx decode t)
    (hbad : Disqualifies ctx bad) :
    ruleBody ctx listTargets decode r = .skipRule := by
  obtain ⟨rarn, hrarn, hpre⟩ := hns
  have hskip : targetBody ctx decode r bad = .skipRule := by
    rw [targetBody_eq_skipRule_iff]
    rcases hbad with h | ⟨h1, h2, h3⟩
    · exact Or.inl h
    · exact Or.inr ⟨h1, h2, hname, h3⟩
  have hloop := targetLoop_skipRule ctx decode r before after bad []
    (fun t ht => targetBody_of_valid ctx decode r t hname (hvalid t ht)) hskip
  simp only [ruleBody, hrarn, hpre, hlt, hloop, deref_some, Flow.bind_next, Bool.not_true,
    continueRuleListIf_false, orReturn_ok, Flow.bind_skipRule]

/-- C12 as stated fails. The rule has a target of another cluster, so it is of
unsupported shape; listed after a cluster ECS target with an undecodable
payload it makes the pass fail with the decode error, although the rule would
not have been emitted; with the two targets in the other order the same rule is
silently excluded. -/
theorem unsupported_shape_counterexample :
    Disqualifies exampleContext exampleOtherClusterTarget ∧
    dumpRules exampleContext
        (exampleLister [exampleUndecodableTarget, exampleOtherClusterTarget]) exampleDecode
        [exampleRule "ENABLED"] = .error "unexpected end of JSON input" ∧
    dumpRules exampleContext
        (exampleLister [exampleOtherClusterTarget, exampleUndecodableTarget]) exampleDecode
        [exampleRule "ENABLED"] = .ok [] :=
  ⟨Or.inl ⟨_, rfl, by decide⟩, by decide, by decide⟩

/-- C12, amended. An in-namespace rule of unsupported shape is silently
excluded and cannot make the pass fail (the pass on a listing that contains it
is the pass on the listing without it) when the targets listed before its first
disqualifying target are valid cluster ECS targets, whatever that target and
the targets after it carry, or when it has two or more targets, all valid
cluster ECS targets. And whenever the loop body of a rule returns an error,
either the target lister failed or the undecodable payload belongs to a target
of that rule that passed the cluster and ECS checks and is preceded by appended
targets only. -/
theorem unsupported_shape_skipped (ctx : Context)
    (listTargets : Option String → Except String (List cloudwatchevents.Target))
    (decode : String → Except String ecs.TaskOverride)
    (r : cloudwatchevents.Rule)
    (hns : InNamespace ctx r) (hname : r.Name.isSome = true)
    (hshape :
      (∃ before bad after, listTargets r.Name = .ok (before ++ bad :: after) ∧
        (∀ t ∈ before, ValidClusterTarget ctx decode t) ∧ Disqualifies ctx bad) ∨
      (∃ ts, listTargets r.Name = .ok ts ∧ 2 ≤ ts.length ∧
        (∀ t ∈ ts, ValidClusterTarget ctx decode t) ∧ r.Description.isSome = true ∧
        r.ScheduleExpression.isSome = true ∧ r.State.isSome = true)) :
    ruleBody ctx listTargets decode r = .skipRule ∧
    (∀ pre post, dumpRules ctx listTargets decode (pre ++ r :: post) =
      dumpRules ctx listTargets decode (pre ++ post)) ∧
    (∀ (x : cloudwatchevents.Rule) (e : String), ruleBody ctx listTargets decode x = .fail e →
      listTargets x.Name = .error e ∨
      ∃ before t after input, listTargets x.Name = .ok (before ++ t :: after) ∧
        (∀ y ∈ before, ∃ tg, targetBody ctx decode x y = .next tg) ∧
        PassesChecks ctx t ∧ t.Input = some input ∧ decode input = .error e) := by
  have hbody : ruleBody ctx listTargets decode r = .skipRule := by
    rcases hshape with ⟨before, bad, after, hlt, hvalid, hbad⟩ |
      ⟨ts, hlt, hlen, hvalid, hdesc, hsched, hstate⟩
    · exact ruleBody_skipRule_of_disqualified ctx listTargets decode r before after bad hns hname
        hlt hvalid hbad
    · exact ruleBody_skipRule_of_many ctx listTargets decode r ts hns hlt hlen hvalid hname hdesc
        hsched hstate
  exact ⟨hbody, fun pre post => ruleLoop_skipRule ctx listTargets decode pre post r [] hbody,
    fun x e hx => ruleBody_eq_fail ctx listTargets decode x e hx⟩

/-- C12, amended, at a rule whose first target points at another cluster and
whose second target has an undecodable payload. -/
theorem unsupported_shape_skipped_witness :
    InNamespace exampleContext (exampleRule "ENABLED") ∧
    Disqualifies exampleContext exampleOtherClusterTarget ∧
    (ruleBody exampleContext
        (exampleLister [exampleOtherClusterTarget, exampleUndecodableTarget]) exampleDecode
        (exampleRule "ENABLED") = .skipRule ∧
     (∀ pre post,
       dumpRules exampleContext
           (exampleLister [exampleOtherClusterTarget, exampleUndecodableTarget]) exampleDecode
           (pre ++ exampleRule "ENABLED" :: post) =
         dumpRules exampleContext
           (exampleLister [exampleOtherClusterTarget, exampleUndecodableTarget]) exampleDecode
           (pre ++ post)) ∧
     (∀ (x : cloudwatchevents.Rule) (e : String),
       ruleBody exampleContext
           (exampleLister [exampleOtherClusterTarget, exampleUndecodableTarget]) exampleDecode
           x = .fail e →
       exampleLister [exampleOtherClusterTarget, exampleUndecodableTarget] x.Name = .error e ∨
       ∃ before t after input,
         exampleLister [exampleOtherClusterTarget, exampleUndecodableTarget] x.Name =
           .ok (before ++ t :: after) ∧
         (∀ y ∈ before, ∃ tg, targetBody exampleContext exampleDecode x y = .next tg) ∧
         PassesChecks exampleContext t ∧ t.Input = some input ∧
         exampleDecode input = .error e)) :=
  have hns : InNamespace exampleContext (exampleRule "ENABLED") := ⟨_, rfl, by decide⟩
  have hbad : Disqualifies exampleContext exampleOtherClusterTarget :=
    Or.inl ⟨_, rfl, by decide⟩
  ⟨hns, hbad,
    unsupported_shape_skipped exampleContext
      (exampleLister [exampleOtherClusterTarget, exampleUndecodableTarget]) exampleDecode
      (exampleRule "ENABLED") hns rfl
      (Or.inl ⟨[], exampleOtherClusterTarget, [exampleUndecodableTarget], rfl,
        fun _ h => absurd h (List.not_mem_nil _), hbad⟩)⟩

/-! ## The context check -/

theorem loadStage_congr (w w' : Collaborators) (a : App) (flags : Flags)
    (hopen : w'.Open = w.Open) (hload : w'.LoadConfig = w.LoadConfig) :
    loadStage w' a flags = loadStage w a flags := by
  simp only [loadStage, hopen, hload]

theorem resolveStage_eq_error_iff (defaultRole accountID : String) (flags : Flags)
    (c : Config) (e : RunError) :
    resolveStage defaultRole accountID flags c = .error e ↔
      e = .context ∧
      ((if flags.region = "" then c.Region else flags.region) = "" ∨
       (if flags.cluster = "" then c.Cluster else flags.cluster) = "") := by
  by_cases h : (if flags.region = "" then c.Region else flags.region) = "" ∨
      (if flags.cluster = "" then c.Cluster else flags.cluster) = ""
  · simp only [resolveStage, if_pos h, Except.error.injEq]
    exact ⟨fun he => ⟨he.symm, h⟩, fun he => he.1.symm⟩
  · simp only [resolveStage, if_neg h]
    simp [h]

theorem resolveStage_eq_ok (defaultRole accountID : String) (flags : Flags)
    (c c' : Config) (ctx : Context)
    (h : resolveStage defaultRole accountID flags c = .ok (ctx, c')) :
    ctx.region = (if flags.region = "" then c.Region else flags.region) ∧
    ctx.cluster = (if flags.cluster = "" then c.Cluster else flags.cluster) ∧
    ctx.accountID = accountID ∧
    ctx.role = (if flags.role = "" then
      (if (if c.Role = "" then flags.role else c.Role) = "" then defaultRole
       else (if c.Role = "" then flags.role else c.Role)) else flags.role) ∧
    c' = { c with Region := ctx.region, Cluster := ctx.cluster,
                  Role := if c.Role = "" then flags.role else c.Role } ∧
    ctx.region ≠ "" ∧ ctx.cluster ≠ "" := by
  by_cases hempty : (if flags.region = "" then c.Region else flags.region) = "" ∨
      (if flags.cluster = "" then c.Cluster else flags.cluster) = ""
  · simp only [resolveStage, if_pos hempty] at h
    cases h
  · simp only [resolveStage, if_neg hempty, Except.ok.injEq, Prod.mk.injEq] at h
    obtain ⟨rfl, rfl⟩ := h
    simp only [not_or] at hempty
    exact ⟨rfl, rfl, rfl, rfl, rfl, hempty.1, hempty.2⟩

/-- C15. With the configuration `c` the command starts from, the region
resolved as the flag if non-empty, else `c.Region`, and the cluster likewise:
`run` ends with the context error, having written nothing, if and only if the
resolved region or the resolved cluster is empty; it then does so whatever the
remote client, the decoder and the marshaller are, so no listing is performed;
and whenever the check is passed, and on every produced document, `Region` and
`Cluster` are the resolved values and both are non-empty. -/
theorem context_error (w : Collaborators) (a : App) (flags : Flags) (c : Config)
    (hload : loadStage w a flags = .ok c) :
    (run w a (.ok flags) = { returned := .error .context, outStream := [] } ↔
      (if flags.region = "" then c.Region else flags.region) = "" ∨
      (if flags.cluster = "" then c.Cluster else flags.cluster) = "") ∧
    ((if flags.region = "" then c.Region else flags.region) = "" ∨
      (if flags.cluster = "" then c.Cluster else flags.cluster) = "" →
      ∀ (New' : String → Service) (Unmarshal' : String → Except String ecs.TaskOverride)
        (Marshal' : Config → Except String String),
        run { w with New := New', Unmarshal := Unmarshal', Marshal := Marshal' } a (.ok flags) =
          { returned := .error .context, outStream := [] }) ∧
    (∀ ctx c', resolveStage w.defaultRole a.AccountID flags c = .ok (ctx, c') →
      ctx.region = (if flags.region = "" then c.Region else flags.region) ∧
      ctx.cluster = (if flags.cluster = "" then c.Cluster else flags.cluster) ∧
      c'.Region = (if flags.region = "" then c.Region else flags.region) ∧
      c'.Cluster = (if flags.cluster = "" then c.Cluster else flags.cluster) ∧
      c'.Region ≠ "" ∧ c'.Cluster ≠ "") ∧
    (∀ doc, dumpConfig w a (.ok flags) = .ok doc →
      doc.Region = (if flags.region = "" then c.Region else flags.region) ∧
      doc.Cluster = (if flags.cluster = "" then c.Cluster else flags.cluster) ∧
      doc.Region ≠ "" ∧ doc.Cluster ≠ "") := by
  have hfail : ∀ w' : Collaborators, loadStage w' a flags = .ok c →
      w'.defaultRole = w.defaultRole →
      ((if flags.region = "" then c.Region else flags.region) = "" ∨
        (if flags.cluster = "" then c.Cluster else flags.cluster) = "") →
      run w' a (.ok flags) = { returned := .error .context, outStream := [] } := by
    intro w' hl hd hempty
    have hres : resolveStage w'.defaultRole a.AccountID flags c = .error .context :=
      (resolveStage_eq_error_iff _ _ _ _ _).mpr ⟨rfl, hempty⟩
    simp only [run, dumpConfig, hl, hres]
  have hok : ∀ ctx c', resolveStage w.defaultRole a.AccountID flags c = .ok (ctx, c') →
      ctx.region = (if flags.region = "" then c.Region else flags.region) ∧
      ctx.cluster = (if flags.cluster = "" then c.Cluster else flags.cluster) ∧
      c'.Region = (if flags.region = "" then c.Region else flags.region) ∧
      c'.Cluster = (if flags.cluster = "" then c.Cluster else flags.cluster) ∧
      c'.Region ≠ "" ∧ c'.Cluster ≠ "" := by
    intro ctx c' h
    obtain ⟨h1, h2, -, -, h5, h6, h7⟩ := resolveStage_eq_ok _ _ _ _ _ _ h
    subst h5
    exact ⟨h1, h2, h1, h2, h6, h7⟩
  refine ⟨⟨fun hrun => ?_, hfail w hload rfl⟩, fun hempty New' Unmarshal' Marshal' =>
    hfail _ ((loadStage_congr w _ a flags rfl rfl).trans hload) rfl hempty, hok, fun doc hdoc => ?_⟩
  · cases hres : resolveStage w.defaultRole a.AccountID flags c with
    | error e => exact ((resolveStage_eq_error_iff _ _ _ _ _).mp hres).2
    | ok pair =>
      exfalso
      obtain ⟨ctx, c'⟩ := pair
      simp only [run, dumpConfig, hload, hres] at hrun
      cases hl : (w.New ctx.region).ListRules with
      | error e => simp [hl] at hrun
      | ok ruleList =>
        simp only [hl] at hrun
        cases hd : dumpRules ctx (w.New ctx.region).ListTargetsByRule w.Unmarshal ruleList with
        | ok rules =>
          simp only [hd] at hrun
          cases hm : w.Marshal { c' with Rules := rules } <;> simp [hm] at hrun
        | error e => simp [hd] at hrun
        | panic => simp [hd] at hrun
  · cases hres : resolveStage w.defaultRole a.AccountID flags c with
    | error e => simp [dumpConfig, hload, hres] at hdoc
    | ok pair =>
      obtain ⟨ctx, c'⟩ := pair
      obtain ⟨-, -, h3, h4, h5, h6⟩ := hok ctx c' hres
      simp only [dumpConfig, hload, hres] at hdoc
      cases hl : (w.New ctx.region).ListRules with
      | error e => simp [hl] at hdoc
      | ok ruleList =>
        simp only [hl] at hdoc
        cases hd : dumpRules ctx (w.New ctx.region).ListTargetsByRule w.Unmarshal ruleList with
        | ok rules =>
          simp only [hd, Pass.ok.injEq] at hdoc
          subst hdoc
          exact ⟨h3, h4, h5, h6⟩
        | error e => simp [hd] at hdoc
        | panic => simp [hd] at hdoc

/-- C15 at a call without a region, on the command line or in a configuration. -/
theorem context_error_witness :
    loadStage (exampleCollaborators [] []) exampleApp exampleFlagsNoRegion = .ok emptyConfig ∧
    ((run (exampleCollaborators [] []) exampleApp (.ok exampleFlagsNoRegion) =
        { returned := .error .context, outStream := [] } ↔
      (if exampleFlagsNoRegion.region = "" then emptyConfig.Region
        else exampleFlagsNoRegion.region) = "" ∨
      (if exampleFlagsNoRegion.cluster = "" then emptyConfig.Cluster
        else exampleFlagsNoRegion.cluster) = "") ∧
     ((if exampleFlagsNoRegion.region = "" then emptyConfig.Region
        else exampleFlagsNoRegion.region) = "" ∨
      (if exampleFlagsNoRegion.cluster = "" then emptyConfig.Cluster
        else exampleFlagsNoRegion.cluster) = "" →
      ∀ (New' : String → Service) (Unmarshal' : String → Except String ecs.TaskOverride)
        (Marshal' : Config → Except String String),
        run { exampleCollaborators [] [] with
              New := New', Unmarshal := Unmarshal', Marshal := Marshal' }
            exampleApp (.ok exampleFlagsNoRegion) =
          { returned := .error .context, outStream := [] }) ∧
     (∀ ctx c',
       resolveStage (exampleCollaborators [] []).defaultRole exampleApp.AccountID
         exampleFlagsNoRegion emptyConfig = .ok (ctx, c') →
       ctx.region = (if exampleFlagsNoRegion.region = "" then emptyConfig.Region
         else exampleFlagsNoRegion.region) ∧
       ctx.cluster = (if exampleFlagsNoRegion.cluster = "" then emptyConfig.Cluster
         else exampleFlagsNoRegion.cluster) ∧
       c'.Region = (if exampleFlagsNoRegion.region = "" then emptyConfig.Region
         else exampleFlagsNoRegion.region) ∧
       c'.Cluster = (if exampleFlagsNoRegion.cluster = "" then emptyConfig.Cluster
         else exampleFlagsNoRegion.cluster) ∧
       c'.Region ≠ "" ∧ c'.Cluster ≠ "") ∧
     (∀ doc, dumpConfig (exampleCollaborators [] []) exampleApp (.ok exampleFlagsNoRegion) =
         .ok doc →
       doc.Region = (if exampleFlagsNoRegion.region = "" then emptyConfig.Region
         else exampleFlagsNoRegion.region) ∧
       doc.Cluster = (if exampleFlagsNoRegion.cluster = "" then emptyConfig.Cluster
         else exampleFlagsNoRegion.cluster) ∧
       doc.Region ≠ "" ∧ doc.Cluster ≠ "")) :=
  ⟨rfl, context_error (exampleCollaborators [] []) exampleApp exampleFlagsNoRegion emptyConfig rfl⟩

/-! ## The declared role -/

/-- C17 fails on the code. The command line gives the role `cliRole` and the
configuration declares `confRole`: line 63 leaves `c.Role` at `confRole` while
lines 66-71 keep `*role` at `cliRole`, so the target whose remote role is the
prefix followed by `cliRole` is emitted with an empty `Role` in a document
whose declared role is `confRole`. -/
theorem declared_role_mismatch :
    dumpConfig
        (exampleCollaborators [exampleRule "ENABLED"]
          [exampleTarget "job" "arn:aws:iam::123456789012:role/cliRole" 1 "\x7b\x7d"])
        exampleAppConfRole (.ok exampleFlagsCliRole) =
      .ok { Region := "us-east-1", Cluster := "batch", Role := "confRole",
            Rules := [exampleEmittedRule] } ∧
    (exampleEmittedRule.Target.map fun tg => tg.Role) = some "" ∧
    "arn:aws:iam::123456789012:role/cliRole" ≠ "arn:aws:iam::123456789012:role/confRole" := by
  decide

/-! ## Absent optional fields -/

/-- C18 fails on the code. An in-namespace rule without a description (line
154), a cluster ECS target without a payload (line 130) and a cluster ECS
target without a task count (line 123) each end the pass in a nil-pointer
panic, with neither a document nor a returned error. -/
theorem absent_field_panics :
    dumpRules exampleContext (exampleLister [exampleDefaultTarget]) exampleDecode
        [{ exampleRule "ENABLED" with Description := none }] = .panic ∧
    dumpRules exampleContext (exampleLister [{ exampleDefaultTarget with Input := none }])
        exampleDecode [exampleRule "ENABLED"] = .panic ∧
    dumpRules exampleContext
        (exampleLister
          [{ exampleDefaultTarget with
             EcsParameters := some
               { TaskCount := none,
                 TaskDefinitionArn :=
                   some "arn:aws:ecs:us-east-1:123456789012:task-definition/app:3" } }])
        exampleDecode [exampleRule "ENABLED"] = .panic ∧
    (run (exampleCollaborators [{ exampleRule "ENABLED" with Description := none }]
        [exampleDefaultTarget]) exampleApp (.ok exampleFlags)).returned = .panic := by
  decide

end Ecsched
